import Mathlib

/-!
Shallow embedding of the browser scheduling engine (x10-browser.js) of this
repository, together with theorems settling the specification claims.

Modelling conventions, used throughout:

- Timestamps are natural numbers counting minutes since an arbitrary epoch.
  Every duration in the source is an integer number of minutes (setup and
  cycle times are given in minutes and multiplied by 60000 to obtain
  milliseconds), and every JavaScript Date manipulation used by the engine
  (setHours with whole hours, setDate plus one, getHours, getMinutes) is
  minute-granular, so the minute-level model is exact.  The engine runs in a
  fixed-offset time zone (IST, no daylight saving), so local calendar
  arithmetic is a fixed shift of the epoch and day and hour extraction are
  plain division and remainder.
- JavaScript object maps keyed by machine or operator name are association
  lists preserving insertion order; Array.prototype.sort is a stable sort
  consistent with the supplied comparator, modelled by the stable insertion
  sort stableSortBy below.
- Thrown exceptions are modelled with Except String; functions that mutate
  the engine state before throwing return the mutated state next to the
  Except value, exactly as the JavaScript state survives a throw.
- The recursive conflict resolution of reserveOperator does not structurally
  terminate (the source can in principle recurse forever); it is modelled
  with an explicit fuel parameter, and every theorem quantifying over runs
  quantifies over the fuel as well.
-/

namespace X1

/-! ## Minute-level time arithmetic (fixed-offset JavaScript Date model) -/

/-- Start of the calendar day containing t (setHours(0,0,0,0)). -/
def dayStart (t : Nat) : Nat := t / 1440 * 1440

/-- Hour of day of t (Date.getHours). -/
def hourOf (t : Nat) : Nat := t % 1440 / 60

/-- Minute of hour of t (Date.getMinutes). -/
def minuteOf (t : Nat) : Nat := t % 60

/-- setHours(h, 0, 0, 0) applied to t. -/
def atHour (t : Nat) (h : Nat) : Nat := dayStart t + h * 60

/-- setDate(getDate() + 1) followed by setHours(h, 0, 0, 0). -/
def nextDayAtHour (t : Nat) (h : Nat) : Nat := dayStart t + 1440 + h * 60

/-- Whether two dates fall on the same calendar day (getDate comparison of the
source; exact on the minute model for the spans that reach it). -/
def sameDay (a b : Nat) : Bool := dayStart a = dayStart b

theorem dayStart_le (t : Nat) : dayStart t ≤ t := by
  simp only [dayStart]; omega

theorem lt_dayStart_add (t : Nat) : t < dayStart t + 1440 := by
  simp only [dayStart]; omega

theorem atHour_le_of_hour_lt {t h : Nat} (hh : hourOf t ≥ h) : atHour t h ≤ t := by
  simp only [atHour, hourOf, dayStart] at *
  omega

theorem le_atHour_of_lt_hour {t h : Nat} (hh : hourOf t < h) : t ≤ atHour t h := by
  simp only [atHour, hourOf, dayStart] at *
  omega

theorem lt_nextDayAtHour (t h : Nat) : t < nextDayAtHour t h := by
  have := lt_dayStart_add t
  simp only [nextDayAtHour]
  omega

/-! ## Stable sorting (model of Array.prototype.sort with a comparator) -/

/-- Insert x in front of the first element y with lt y x = false; elements
strictly smaller than x are passed over, so x lands before every element it
ties with.  Together with stableSortBy this is a stable insertion sort. -/
def insertStable (lt : α → α → Bool) (x : α) : List α → List α
  | [] => [x]
  | y :: ys => if lt y x then y :: insertStable lt x ys else x :: y :: ys

/-- Stable sort: each element is inserted into the sorted tail, landing in
front of the tail elements it compares equal to, hence preserving the input
order of ties, as Array.prototype.sort does. -/
def stableSortBy (lt : α → α → Bool) : List α → List α
  | [] => []
  | x :: xs => insertStable lt x (stableSortBy lt xs)

theorem insertStable_perm (lt : α → α → Bool) (x : α) (l : List α) :
    List.Perm (insertStable lt x l) (x :: l) := by
  induction l with
  | nil => simp [insertStable]
  | cons y ys ih =>
    simp only [insertStable]
    by_cases h : lt y x
    · simp only [h, if_true]
      exact List.Perm.trans (List.Perm.cons y ih) (List.Perm.swap x y ys)
    · simp [h]

theorem stableSortBy_perm (lt : α → α → Bool) (l : List α) :
    List.Perm (stableSortBy lt l) l := by
  induction l with
  | nil => simp [stableSortBy]
  | cons x xs ih =>
    exact List.Perm.trans (insertStable_perm lt x (stableSortBy lt xs)) (List.Perm.cons x ih)

theorem insertStable_pairwise (lt : α → α → Bool)
    (hasymm : ∀ {a b : α}, lt a b = true → lt b a = false)
    (hneg : ∀ {a b c : α}, lt b a = false → lt c b = false → lt c a = false)
    (x : α) {l : List α} (h : List.Pairwise (fun a b => lt b a = false) l) :
    List.Pairwise (fun a b => lt b a = false) (insertStable lt x l) := by
  induction l with
  | nil => simp [insertStable]
  | cons y ys ih =>
    rw [List.pairwise_cons] at h
    obtain ⟨hy, hys⟩ := h
    simp only [insertStable]
    by_cases hxy : lt y x
    · simp only [hxy, if_true]
      refine List.Pairwise.cons ?_ (ih hys)
      intro z hz
      have hz' := (insertStable_perm lt x ys).mem_iff.mp hz
      rcases List.mem_cons.mp hz' with rfl | hz''
      · exact hasymm hxy
      · exact hy z hz''
    · simp only [hxy, if_false]
      have hyx : lt y x = false := by revert hxy; cases lt y x <;> simp
      refine List.Pairwise.cons ?_ (List.Pairwise.cons hy hys)
      intro z hz
      rcases List.mem_cons.mp hz with rfl | hz'
      · exact hyx
      · have hzy : lt z y = false := hy z hz'
        exact hneg hyx hzy

theorem stableSortBy_pairwise (lt : α → α → Bool)
    (hasymm : ∀ {a b : α}, lt a b = true → lt b a = false)
    (hneg : ∀ {a b c : α}, lt b a = false → lt c b = false → lt c a = false)
    (l : List α) :
    List.Pairwise (fun a b => lt b a = false) (stableSortBy lt l) := by
  induction l with
  | nil => simp [stableSortBy]
  | cons x xs ih => exact insertStable_pairwise lt hasymm hneg x ih

theorem filter_insertStable_pos (lt : α → α → Bool) (p : α → Bool)
    (x : α) {l : List α}
    (hsorted : List.Pairwise (fun a b => lt b a = false) l)
    (hx : p x = true)
    (hclass : ∀ y ∈ l, p y = true → lt y x = false) :
    List.filter p (insertStable lt x l) = x :: List.filter p l := by
  induction l with
  | nil => simp [insertStable, hx]
  | cons y ys ih =>
    rw [List.pairwise_cons] at hsorted
    obtain ⟨hy, hys⟩ := hsorted
    simp only [insertStable]
    by_cases hxy : lt y x
    · have hpy : p y = false := by
        by_contra hpy'
        have := hclass y (List.mem_cons_self y ys) (by revert hpy'; cases p y <;> simp)
        simp [this] at hxy
      simp only [hxy, if_true, List.filter, hpy]
      exact ih hys (fun z hz hpz => hclass z (List.mem_cons_of_mem y hz) hpz)
    · simp [hxy, List.filter, hx]

theorem filter_insertStable_neg (lt : α → α → Bool) (p : α → Bool)
    (x : α) (l : List α) (hx : p x = false) :
    List.filter p (insertStable lt x l) = List.filter p l := by
  induction l with
  | nil => simp [insertStable, hx]
  | cons y ys ih =>
    simp only [insertStable]
    by_cases hxy : lt y x
    · simp only [hxy, if_true, List.filter]
      cases p y <;> simp [ih]
    · simp [hxy, List.filter, hx]

/-- Stability of stableSortBy: the sort leaves the relative order of any
comparator-tie class untouched, provided ties never compare strictly. -/
theorem filter_stableSortBy (lt : α → α → Bool) (p : α → Bool)
    (hasymm : ∀ {a b : α}, lt a b = true → lt b a = false)
    (hneg : ∀ {a b c : α}, lt b a = false → lt c b = false → lt c a = false)
    (hties : ∀ {a b : α}, p a = true → p b = true → lt a b = false)
    (l : List α) :
    List.filter p (stableSortBy lt l) = List.filter p l := by
  induction l with
  | nil => simp [stableSortBy]
  | cons x xs ih =>
    simp only [stableSortBy]
    by_cases hx : p x
    · rw [filter_insertStable_pos lt p x (stableSortBy_pairwise lt hasymm hneg xs) hx
        (fun y _ hpy => hties hpy hx)]
      simp [List.filter, hx, ih]
    · have hx' : p x = false := by revert hx; cases p x <;> simp
      rw [filter_insertStable_neg lt p x _ hx']
      simp [List.filter, hx', ih]

/-! ## Core data model -/

/-- Order priority (the Priority strings Low, Normal, High, Urgent). -/
inductive Priority where
  | Low | Normal | High | Urgent
deriving DecidableEq, Repr

/-- Priority weight used by the EDD sort of runScheduling. -/
def priorityWeight : Priority → Nat
  | .Urgent => 4
  | .High => 3
  | .Normal => 2
  | .Low => 1

/-- High or Urgent, as tested by calculateBatchSplitting. -/
def isHighPriority (p : Priority) : Bool := p = Priority.High || p = Priority.Urgent

/-- A reserved time interval (start and end timestamps in minutes). -/
structure Interval where
  start : Nat
  stop : Nat
deriving DecidableEq, Repr

/-- A batch produced by calculateBatchSplitting. -/
structure Batch where
  batchId : String
  quantity : Nat
  batchIndex : Nat
deriving DecidableEq, Repr

/-! ## Batch Planner (calculateBatchSplitting) -/

/-- String(n).padStart(2, the zero digit). -/
def padTwo (n : Nat) : String := if n < 10 then "0" ++ toString n else toString n

/-- Batch identifier B01, B02, ... -/
def mkBatchId (n : Nat) : String := "B" ++ padTwo n

/-- Math.ceil(a / b) on natural numbers. -/
def ceilDivNat (a b : Nat) : Nat := (a + b - 1) / b

/-- The custom-batch-size loop: repeatedly carve min(userBatchSize, remaining)
until the remaining quantity is exhausted.  The user batch size is passed as
its predecessor (the effective size is always at least 1 in the source, since
parseInt(x) falsy selects the default 300), which makes termination evident. -/
def customCarve (sizePred : Nat) : Nat → Nat → List Batch
  | 0, _ => []
  | remaining + 1, batchIndex =>
    let bq := min (sizePred + 1) (remaining + 1)
    { batchId := mkBatchId (batchIndex + 1), quantity := bq, batchIndex := batchIndex }
      :: customCarve sizePred (remaining + 1 - bq) (batchIndex + 1)
termination_by r => r
decreasing_by omega

/-- Effective custom batch size: parseInt(customBatchSize) when truthy, else
the default 300.  In the natural-number model the falsy values of the source
(unset, unparsable, zero) are none and some 0. -/
def effectiveCustomSize : Option Nat → Nat
  | none => 300
  | some k => if k = 0 then 300 else k

/-- Balanced splitting loop shared by auto-split rules 3 and 4: numBatches
batches of baseSize each, with the remainder distributed one piece per batch
to the first batches. -/
def balancedBatches (numBatches baseSize remainder : Nat) : List Batch :=
  (List.range numBatches).map fun i =>
    { batchId := mkBatchId (i + 1)
      quantity := baseSize + (if i < remainder then 1 else 0)
      batchIndex := i }

/-- Batch mode of an order; any unrecognized mode falls into the default
switch branch, which is auto-split. -/
inductive BatchMode where
  | singleBatch | customSize | autoSplit
deriving DecidableEq, Repr

/-- calculateBatchSplitting of the engine.  The dueDate and startDate
parameters of the source are unused by its body and omitted here; the
minBatchSize parameter is kept although the source body never reads it. -/
def calculateBatchSplitting (totalQuantity : Nat) (_minBatchSize : Nat)
    (priority : Priority) (batchMode : BatchMode)
    (customBatchSize : Option Nat) : List Batch :=
  match batchMode with
  | .singleBatch =>
    [{ batchId := "B01", quantity := totalQuantity, batchIndex := 0 }]
  | .customSize =>
    let userBatchSize := effectiveCustomSize customBatchSize
    customCarve (userBatchSize - 1) totalQuantity 0
  | .autoSplit =>
    let isHigh := isHighPriority priority
    if totalQuantity ≤ 250 then
      [{ batchId := "B01", quantity := totalQuantity, batchIndex := 0 }]
    else if totalQuantity ≤ 500 then
      let half1 := ceilDivNat totalQuantity 2
      let half2 := totalQuantity - half1
      [{ batchId := "B01", quantity := half1, batchIndex := 0 },
       { batchId := "B02", quantity := half2, batchIndex := 1 }]
    else if totalQuantity ≤ 1000 then
      let numBatches :=
        if isHigh then 3
        else if totalQuantity % 3 < totalQuantity % 2 then 3 else 2
      balancedBatches numBatches (totalQuantity / numBatches) (totalQuantity % numBatches)
    else
      let numBatches :=
        if isHigh then ceilDivNat totalQuantity 334 else ceilDivNat totalQuantity 500
      balancedBatches numBatches (totalQuantity / numBatches) (totalQuantity % numBatches)

theorem customCarve_quantity_sum (sizePred : Nat) :
    ∀ r idx, ((customCarve sizePred r idx).map Batch.quantity).sum = r := by
  intro r
  induction r using Nat.strong_induction_on with
  | _ r ih =>
    intro idx
    match r with
    | 0 => simp [customCarve]
    | remaining + 1 =>
      rw [customCarve]
      simp only [List.map_cons, List.sum_cons]
      rw [ih (remaining + 1 - min (sizePred + 1) (remaining + 1)) (by omega)]
      omega

theorem customCarve_map_quantity (sizePred : Nat) :
    ∀ r idx, (customCarve sizePred r idx).map Batch.quantity =
      List.replicate (r / (sizePred + 1)) (sizePred + 1) ++
        (if r % (sizePred + 1) = 0 then [] else [r % (sizePred + 1)]) := by
  intro r
  induction r using Nat.strong_induction_on with
  | _ r ih =>
    intro idx
    match r with
    | 0 => simp [customCarve]
    | remaining + 1 =>
      rw [customCarve]
      simp only [List.map_cons]
      by_cases hs : sizePred + 1 ≤ remaining + 1
      · have hmin : min (sizePred + 1) (remaining + 1) = sizePred + 1 := by omega
        rw [hmin, ih (remaining + 1 - (sizePred + 1)) (by omega)]
        have hdiv : (remaining + 1) / (sizePred + 1)
            = (remaining + 1 - (sizePred + 1)) / (sizePred + 1) + 1 :=
          Nat.div_eq_sub_div (by omega) hs
        have hmod : (remaining + 1) % (sizePred + 1)
            = (remaining + 1 - (sizePred + 1)) % (sizePred + 1) :=
          Nat.mod_eq_sub_mod hs
        rw [hdiv, hmod, List.replicate_succ]
        simp
      · have hmin : min (sizePred + 1) (remaining + 1) = remaining + 1 := by omega
        have hdiv : (remaining + 1) / (sizePred + 1) = 0 := Nat.div_eq_of_lt (by omega)
        have hmod : (remaining + 1) % (sizePred + 1) = remaining + 1 :=
          Nat.mod_eq_of_lt (by omega)
        rw [hmin, hdiv, hmod]
        simp [customCarve]

theorem balancedBatches_quantity_sum (n base rem : Nat) :
    ((balancedBatches n base rem).map Batch.quantity).sum = n * base + min rem n := by
  induction n with
  | zero => simp [balancedBatches]
  | succ m ih =>
    simp only [balancedBatches, List.range_succ, List.map_append, List.map_map,
      List.sum_append] at *
    rw [ih]
    have hmul : (m + 1) * base = m * base + base := by ring
    by_cases h : m < rem
    · simp only [List.map_cons, List.map_nil, Function.comp, h, if_true]
      simp only [List.sum_cons, List.sum_nil]
      omega
    · simp only [List.map_cons, List.map_nil, Function.comp, h, if_false]
      simp only [List.sum_cons, List.sum_nil]
      omega

/-- C4: for every positive quantity and every batch mode the planner returns
at least one batch and the batch quantities sum exactly to the order
quantity.  (Claim C4.) -/
theorem batch_sum_invariant (q mb : Nat) (p : Priority) (mode : BatchMode)
    (c : Option Nat) (hq : 0 < q) :
    calculateBatchSplitting q mb p mode c ≠ [] ∧
      ((calculateBatchSplitting q mb p mode c).map Batch.quantity).sum = q := by
  cases mode with
  | singleBatch => simp [calculateBatchSplitting]
  | customSize =>
    constructor
    · match hq' : q with
      | qq + 1 => rw [calculateBatchSplitting, customCarve]; simp
    · exact customCarve_quantity_sum _ q 0
  | autoSplit =>
    rw [calculateBatchSplitting]
    by_cases h1 : q ≤ 250
    · simp [h1]
    · by_cases h2 : q ≤ 500
      · simp only [h1, h2, if_false, if_true]
        constructor
        · simp
        · simp only [List.map_cons, List.map_nil, List.sum_cons, List.sum_nil]
          have : ceilDivNat q 2 ≤ q := by simp only [ceilDivNat]; omega
          omega
      · by_cases h3 : q ≤ 1000
        · simp only [h1, h2, h3, if_false, if_true]
          set n := if isHighPriority p = true then 3 else if q % 3 < q % 2 then 3 else 2 with hn
          have hn' : n = 3 ∨ n = 2 := by
            rw [hn]; split
            · left; rfl
            · split
              · left; rfl
              · right; rfl
          have hml : q % n < n := Nat.mod_lt q (by rcases hn' with h | h <;> omega)
          constructor
          · have : 0 < n := by omega
            simp [balancedBatches, List.range_eq_nil]
            omega
          · rw [balancedBatches_quantity_sum]
            have := Nat.div_add_mod q n
            omega
        · simp only [h1, h2, h3, if_false]
          set n := if isHighPriority p = true then ceilDivNat q 334 else ceilDivNat q 500
            with hn
          have hn0 : 0 < n := by
            rw [hn]
            split <;> (simp only [ceilDivNat]; omega)
          have hml : q % n < n := Nat.mod_lt q hn0
          constructor
          · simp [balancedBatches, List.range_eq_nil]
            omega
          · rw [balancedBatches_quantity_sum]
            have := Nat.div_add_mod q n
            omega

/-- Witness for batch_sum_invariant at quantity 700, custom mode, size 300. -/
theorem batch_sum_invariant_witness :
    calculateBatchSplitting 700 100 Priority.Normal BatchMode.customSize (some 300) ≠ [] ∧
      ((calculateBatchSplitting 700 100 Priority.Normal BatchMode.customSize
        (some 300)).map Batch.quantity).sum = 700 :=
  batch_sum_invariant 700 100 Priority.Normal BatchMode.customSize (some 300) (by decide)

/-- C5: the auto-split boundary cases of the claim, computed exactly:
Q=250 gives one batch of 250; Q=251 gives 126 and 125; Q=1000 at Normal
priority gives two batches of 500 (remainder rule: 1000 mod 3 = 1 is not
below 1000 mod 2 = 0); Q=1200 at High priority gives ceil(1200/334) = 4
batches of 300.  (Claim C5.) -/
theorem auto_split_boundaries (mb : Nat) :
    calculateBatchSplitting 250 mb Priority.Normal BatchMode.autoSplit none =
      [{ batchId := "B01", quantity := 250, batchIndex := 0 }] ∧
    calculateBatchSplitting 251 mb Priority.Normal BatchMode.autoSplit none =
      [{ batchId := "B01", quantity := 126, batchIndex := 0 },
       { batchId := "B02", quantity := 125, batchIndex := 1 }] ∧
    calculateBatchSplitting 1000 mb Priority.Normal BatchMode.autoSplit none =
      [{ batchId := "B01", quantity := 500, batchIndex := 0 },
       { batchId := "B02", quantity := 500, batchIndex := 1 }] ∧
    calculateBatchSplitting 1200 mb Priority.High BatchMode.autoSplit none =
      [{ batchId := "B01", quantity := 300, batchIndex := 0 },
       { batchId := "B02", quantity := 300, batchIndex := 1 },
       { batchId := "B03", quantity := 300, batchIndex := 2 },
       { batchId := "B04", quantity := 300, batchIndex := 3 }] := by
  refine ⟨?_, ?_, ?_, ?_⟩ <;> rfl

/-- C6: in custom-batch-size mode the planner carves min(customSize,
remaining) until exhaustion, so the quantities are floor(q/size) full batches
followed by the positive remainder if any; and an unset or invalid (zero)
custom size falls back to the default 300.  (Claim C6.) -/
theorem custom_batch_size_mode (q mb : Nat) (p : Priority) (c : Option Nat)
    (_hq : 0 < q) :
    ((calculateBatchSplitting q mb p BatchMode.customSize c).map Batch.quantity =
      List.replicate (q / effectiveCustomSize c) (effectiveCustomSize c) ++
        (if q % effectiveCustomSize c = 0 then []
         else [q % effectiveCustomSize c])) ∧
    calculateBatchSplitting q mb p BatchMode.customSize none =
      calculateBatchSplitting q mb p BatchMode.customSize (some 300) ∧
    calculateBatchSplitting q mb p BatchMode.customSize (some 0) =
      calculateBatchSplitting q mb p BatchMode.customSize (some 300) := by
  refine ⟨?_, ?_, ?_⟩
  · have h1 : 0 < effectiveCustomSize c := by
      cases c with
      | none => simp [effectiveCustomSize]
      | some k =>
        simp only [effectiveCustomSize]
        split <;> omega
    have := customCarve_map_quantity (effectiveCustomSize c - 1) q 0
    rw [calculateBatchSplitting]
    have heq : effectiveCustomSize c - 1 + 1 = effectiveCustomSize c := by omega
    rw [heq] at this
    exact this
  · rfl
  · rfl

/-! ## Resource Ledger: schedules, conflicts, reservations -/

/-- Association list modelling a JavaScript object keyed by resource name;
insertion order is preserved, as Object.entries iteration is. -/
abbrev Sched := List (String × List Interval)

/-- Read the interval list of a resource (missing key reads as the empty
list, as the defensive initializations in the source arrange). -/
def lookupIv (s : Sched) (k : String) : List Interval :=
  match s.find? (fun e => e.1 == k) with
  | some e => e.2
  | none => []

/-- Write the interval list of a resource, keeping the key order and
appending a fresh key at the end, as JavaScript property assignment does. -/
def setIv : Sched → String → List Interval → Sched
  | [], k, v => [(k, v)]
  | (k', v') :: rest, k, v =>
    if k' == k then (k, v) :: rest else (k', v') :: setIv rest k v

/-- Sort intervals ascending by start (the stable comparator sort
(a, b) => a.start - b.start of the source). -/
def sortIntervals (l : List Interval) : List Interval :=
  stableSortBy (fun a b => decide (a.start < b.start)) l

/-- Half-open interval overlap, the test used throughout the source:
start1 < end2 and start2 < end1. -/
def overlaps (a b : Interval) : Prop := a.start < b.stop ∧ b.start < a.stop

instance : DecidablePred fun p : Interval × Interval => overlaps p.1 p.2 := by
  intro p; unfold overlaps; infer_instance

instance (a b : Interval) : Decidable (overlaps a b) := by
  unfold overlaps; infer_instance

theorem overlaps_symm {a b : Interval} (h : overlaps a b) : overlaps b a := ⟨h.2, h.1⟩

/-- The no-double-booking invariant for one resource: no two stored
intervals overlap. -/
def NoOverlaps (l : List Interval) : Prop := l.Pairwise (fun a b => ¬ overlaps a b)

instance (l : List Interval) : Decidable (NoOverlaps l) := by
  unfold NoOverlaps; infer_instance

/-- Per-operator shift definition (operatorShifts of the engine). -/
inductive ShiftKind where
  | morning | afternoon
deriving DecidableEq, Repr

structure ShiftDef where
  start : Nat
  stop : Nat
  kind : ShiftKind
deriving DecidableEq, Repr

/-- operatorShifts: A and B on the morning shift 06:00-14:00, C and D on the
afternoon shift 14:00-22:00. -/
def operatorShifts (operator : String) : Option ShiftDef :=
  if operator = "A" then some ⟨6, 14, .morning⟩
  else if operator = "B" then some ⟨6, 14, .morning⟩
  else if operator = "C" then some ⟨14, 22, .afternoon⟩
  else if operator = "D" then some ⟨14, 22, .afternoon⟩
  else none

def allMachines : List String :=
  ["VMC 1", "VMC 2", "VMC 3", "VMC 4", "VMC 5", "VMC 6", "VMC 7"]

def allPersons : List String := ["A", "B", "C", "D"]

/-- Global settings consumed by the engine core.  Date strings are parsed at
the boundary of the source; here they arrive as structured values.  The
holidays and breakdown date ranges of the source are parsed into fields that
no live code path reads and are omitted. -/
structure GlobalSettings where
  startDateTime : Option Nat
  setupWindow : Option (Nat × Nat)
  breakdownMachines : List String
deriving Repr

/-- Engine state: the Resource Ledger (machine and operator interval lists),
the write-only person availability map, and the effective start time
(the global start date-time, frozen to the run start when absent). -/
structure EngineState where
  machineSchedule : Sched
  operatorSchedule : Sched
  personSchedule : List (String × Nat)
  effectiveStart : Nat
deriving Repr

/-- Engine construction plus resetSchedules plus setGlobalSettings: every
machine and operator starts with an empty interval list. -/
def initEngine (gs : GlobalSettings) (now : Nat) : EngineState :=
  { machineSchedule := allMachines.map fun m => (m, [])
    operatorSchedule := allPersons.map fun p => (p, [])
    personSchedule := allPersons.map fun p => (p, now)
    effectiveStart := gs.startDateTime.getD now }

/-- hasConflict of the engine: true iff the candidate window overlaps any
stored interval of the machine. -/
def hasConflict (st : EngineState) (machine : String) (w : Interval) : Bool :=
  (lookupIv st.machineSchedule machine).any fun iv =>
    decide (w.start < iv.stop) && decide (iv.start < w.stop)

/-- getEarliestFreeTime: the effective start time when the machine has no
reservations, else the maximum stored end time. -/
def getEarliestFreeTime (st : EngineState) (machine : String) : Nat :=
  let intervals := lookupIv st.machineSchedule machine
  if intervals.isEmpty then st.effectiveStart
  else intervals.foldl (fun latest iv => if latest < iv.stop then iv.stop else latest) 0

/-- First overlapping pair found by the nested validation loops
(outer index i, inner index j greater than i, first hit wins). -/
def findOverlapPair : List Interval → Option (Interval × Interval)
  | [] => none
  | iv :: rest =>
    match rest.find? (fun iv2 => decide (iv.start < iv2.stop) && decide (iv2.start < iv.stop)) with
    | some iv2 => some (iv, iv2)
    | none => findOverlapPair rest

/-- validateMachineSchedule: the defensive overlap re-validation; any
overlapping pair raises the scheduling-integrity defect. -/
def validateMachineSchedule (st : EngineState) (machine : String) : Except String Unit :=
  match findOverlapPair (lookupIv st.machineSchedule machine) with
  | some _ =>
    Except.error ("Machine " ++ machine ++
      " has overlapping bookings - scheduling integrity violated")
  | none => Except.ok ()

/-- reserveMachine: push the reservation, re-sort by start, then run the
defensive validation.  The push happens before the validation, so a detected
overlap is stored in the returned state even though an error is signalled
(the JavaScript throw does not roll the mutation back). -/
def reserveMachine (st : EngineState) (machine : String) (startTime stopTime : Nat) :
    EngineState × Except String Unit :=
  let ivs := lookupIv st.machineSchedule machine
  let sorted := sortIntervals (ivs ++ [⟨startTime, stopTime⟩])
  let st' := { st with machineSchedule := setIv st.machineSchedule machine sorted }
  (st', validateMachineSchedule st' machine)

/-- hasOperatorConflict: overlap of the candidate setup interval with any
stored setup interval of the operator. -/
def hasOperatorConflict (st : EngineState) (operator : String) (setupStart setupEnd : Nat) :
    Bool :=
  (lookupIv st.operatorSchedule operator).any fun ex =>
    decide (setupStart < ex.stop) && decide (ex.start < setupEnd)

/-- getTotalOperatorSetupMinutes: summed lengths of all stored setup
intervals of the operator. -/
def getTotalOperatorSetupMinutes (st : EngineState) (operator : String) : Nat :=
  ((lookupIv st.operatorSchedule operator).map fun iv => iv.stop - iv.start).sum

/-- getOperatorSetupMinutesInShift: minutes of stored setup overlapping the
shift of the operator on the day of the reference time.  The source indexes
operatorShifts without a guard and would crash on an unknown operator; the
model returns zero there (the call sites only pass known operators). -/
def getOperatorSetupMinutesInShift (st : EngineState) (operator : String)
    (referenceTime : Nat) : Nat :=
  match operatorShifts operator with
  | none => 0
  | some sh =>
    let shiftStart := atHour referenceTime sh.start
    let shiftEnd := atHour referenceTime sh.stop
    ((lookupIv st.operatorSchedule operator).map fun iv =>
      if iv.start < shiftEnd ∧ shiftStart < iv.stop then
        min iv.stop shiftEnd - max iv.start shiftStart
      else 0).sum

/-- isOperatorOnShift: the quirky shift containment test of the source,
including its two extra acceptance branches (the endHour above 24 branch is
unreachable on real hours; the endHour below startHour branch accepts
upward-wrapping spans). -/
def isOperatorOnShift (operator : String) (setupStart setupEnd : Nat) : Bool :=
  match operatorShifts operator with
  | none => false
  | some sh =>
    let startHour := hourOf setupStart
    let endHour := hourOf setupEnd
    let on0 := decide (sh.start ≤ startHour) && decide (endHour ≤ sh.stop)
    let on1 := on0 || (decide (sh.start ≤ startHour) && decide (24 < endHour))
    on1 || (decide (sh.start ≤ startHour) && decide (endHour < startHour))

/-- getOperatorsOnShift: the operators (in the fixed A, B, C, D iteration
order) whose shift test accepts the interval. -/
def getOperatorsOnShift (setupStart setupEnd : Nat) : List String :=
  allPersons.filter fun operator => isOperatorOnShift operator setupStart setupEnd

/-- getEarliestOperatorFreeTime: the later of the requested start and the
maximum stored end time of the operator. -/
def getEarliestOperatorFreeTime (st : EngineState) (operator : String) (setupStart : Nat) :
    Nat :=
  let intervals := lookupIv st.operatorSchedule operator
  if intervals.isEmpty then setupStart
  else
    let latest := intervals.foldl (fun latest iv => if latest < iv.stop then iv.stop else latest) 0
    if setupStart < latest then latest else setupStart

/-- Operator rotation index (indexOf in the A, B, C, D array; minus one for
an unknown name, as indexOf yields). -/
def operatorRotationIndex (operator : String) : Int :=
  if operator = "A" then 0
  else if operator = "B" then 1
  else if operator = "C" then 2
  else if operator = "D" then 3
  else -1

/-- calculateOperatorPriority: totalAssignedMinutes plus half the current
shift minutes, minus 50 for the afternoon shift, plus 10 per rotation index,
rounded half-up.  The half factor is computed exactly at double scale and
Math.round(x) equals floor of 2x plus 1 over 2. -/
def calculateOperatorPriority (operator : String) (totalSetupMinutes currentShiftMinutes : Nat)
    (kind : ShiftKind) : Int :=
  let v2 : Int := 2 * totalSetupMinutes + currentShiftMinutes
    - (if kind = ShiftKind.afternoon then 100 else 0)
    + 20 * operatorRotationIndex operator
  (v2 + 1).fdiv 2

/-- Candidate record built by findAlternativeOperator and selectOptimalPerson. -/
structure OperatorCandidate where
  operator : String
  priority : Int
deriving Repr

/-- Shared candidate-ranking step: conflict-free operators on shift, each
with the auto-balancing priority. -/
def rankedOperatorCandidates (st : EngineState) (setupStart setupEnd : Nat) :
    List OperatorCandidate :=
  ((getOperatorsOnShift setupStart setupEnd).filter fun operator =>
      !(hasOperatorConflict st operator setupStart setupEnd)).map fun operator =>
    let totalSetupMinutes := getTotalOperatorSetupMinutes st operator
    let currentShiftMinutes := getOperatorSetupMinutesInShift st operator setupStart
    let kind := (operatorShifts operator).map ShiftDef.kind |>.getD ShiftKind.morning
    { operator := operator
      priority := calculateOperatorPriority operator totalSetupMinutes currentShiftMinutes kind }

/-- First result of an option-producing function over a list (the pattern of
a for loop whose body may return). -/
def firstSome : List α → (α → Option β) → Option β
  | [], _ => none
  | x :: xs, f =>
    match f x with
    | some y => some y
    | none => firstSome xs f

/-- findAlternativeOperator: rank conflict-free on-shift operators by
priority and take the best; otherwise retry with 5 to 30 minute delays and
return the first conflict-free operator on the delayed interval. -/
def findAlternativeOperator (st : EngineState) (setupStart setupEnd : Nat) : Option String :=
  let candidates := rankedOperatorCandidates st setupStart setupEnd
  let sorted := stableSortBy (fun a b => decide (a.priority < b.priority)) candidates
  match sorted with
  | best :: _ => some best.operator
  | [] =>
    firstSome [5, 10, 15, 20, 25, 30] fun delayMinutes =>
      let ds := setupStart + delayMinutes
      let de := setupEnd + delayMinutes
      (getOperatorsOnShift ds de).find? fun operator =>
        !(hasOperatorConflict st operator ds de)

/-- reserveOperator: conflict-checked reservation with aggressive silent
resolution.  On a conflict the source recurses with an alternative operator
or a 15 minute delay and never throws; the recursion has no structural bound,
so it carries a fuel parameter here, returning the state unchanged on
exhaustion. -/
def reserveOperator (fuel : Nat) (st : EngineState) (operator : String)
    (setupStart setupEnd : Nat) : EngineState :=
  match fuel with
  | 0 => st
  | fuel + 1 =>
    let ivs := lookupIv st.operatorSchedule operator
    match ivs.find? (fun ex => decide (setupStart < ex.stop) && decide (ex.start < setupEnd)) with
    | some _ =>
      match findAlternativeOperator st setupStart setupEnd with
      | some alt =>
        if alt ≠ operator then reserveOperator fuel st alt setupStart setupEnd
        else reserveOperator fuel st operator (setupStart + 15) (setupEnd + 15)
      | none => reserveOperator fuel st operator (setupStart + 15) (setupEnd + 15)
    | none =>
      let sorted := sortIntervals (ivs ++ [⟨setupStart, setupEnd⟩])
      { st with operatorSchedule := setIv st.operatorSchedule operator sorted }

/-- validateOperatorSchedule: adjacent-pair overbooking check on the stored
(start-sorted) setup intervals of one operator. -/
def validateOperatorSchedule (st : EngineState) (operator : String) : Except String Unit :=
  let rec go : List Interval → Except String Unit
    | a :: b :: rest =>
      if b.start < a.stop then
        Except.error ("[SETUP-OVERBOOKING] Operator " ++ operator ++
          " has overlapping setup intervals")
      else go (b :: rest)
    | _ => Except.ok ()
  go (lookupIv st.operatorSchedule operator)

/-! ## Ledger invariant lemmas -/

theorem lookupIv_setIv_self (s : Sched) (k : String) (v : List Interval) :
    lookupIv (setIv s k v) k = v := by
  induction s with
  | nil => simp [setIv, lookupIv, List.find?]
  | cons e rest ih =>
    simp only [setIv]
    by_cases h : e.1 == k
    · simp [h, lookupIv, List.find?]
    · have h' : (e.1 == k) = false := by revert h; cases e.1 == k <;> simp
      simp only [h', if_false, Bool.false_eq_true]
      simp only [lookupIv, List.find?, h'] at *
      exact ih

theorem lookupIv_setIv_other (s : Sched) (k k' : String) (v : List Interval)
    (h : k' ≠ k) : lookupIv (setIv s k v) k' = lookupIv s k' := by
  induction s with
  | nil =>
    have h2 : (k == k') = false := by
      simp only [beq_eq_false_iff_ne]; exact fun e => h e.symm
    simp [setIv, lookupIv, List.find?, h2]
  | cons e rest ih =>
    simp only [setIv]
    by_cases he : e.1 == k
    · have hek : e.1 = k := by exact beq_iff_eq.mp he
      have h2 : (k == k') = false := by
        simp only [beq_eq_false_iff_ne]; exact fun e2 => h e2.symm
      have h3 : (e.1 == k') = false := by
        simp only [beq_eq_false_iff_ne, hek]; exact fun e2 => h e2.symm
      simp [he, lookupIv, List.find?, h2, h3]
    · have he' : (e.1 == k) = false := by revert he; cases e.1 == k <;> simp
      simp only [he', if_false, Bool.false_eq_true, lookupIv, List.find?]
      by_cases hk : e.1 == k'
      · simp [hk]
      · have hk' : (e.1 == k') = false := by revert hk; cases e.1 == k' <;> simp
        simp only [hk', lookupIv] at ih ⊢
        exact ih

theorem noOverlaps_of_perm {l l' : List Interval} (hp : List.Perm l l')
    (h : NoOverlaps l) : NoOverlaps l' :=
  (List.Perm.pairwise_iff (fun hab h2 => hab (overlaps_symm h2)) hp).mp h

theorem noOverlaps_sortIntervals {l : List Interval} (h : NoOverlaps l) :
    NoOverlaps (sortIntervals l) :=
  noOverlaps_of_perm (stableSortBy_perm _ l).symm h

theorem findOverlapPair_eq_none {l : List Interval} (h : NoOverlaps l) :
    findOverlapPair l = none := by
  induction l with
  | nil => rfl
  | cons iv rest ih =>
    rw [NoOverlaps, List.pairwise_cons] at h
    obtain ⟨hiv, hrest⟩ := h
    simp only [findOverlapPair]
    have hfind : rest.find?
        (fun iv2 => decide (iv.start < iv2.stop) && decide (iv2.start < iv.stop)) = none := by
      rw [List.find?_eq_none]
      intro x hx
      have := hiv x hx
      simp only [overlaps, not_and] at this
      by_cases h1 : iv.start < x.stop
      · have := this h1
        simp [h1, this]
      · simp [h1]
    rw [hfind]
    exact ih hrest

theorem findOverlapPair_ne_none {l : List Interval} (h : ¬ NoOverlaps l) :
    findOverlapPair l ≠ none := by
  induction l with
  | nil => exact absurd List.Pairwise.nil h
  | cons iv rest ih =>
    simp only [findOverlapPair]
    cases hfind : rest.find?
        (fun iv2 => decide (iv.start < iv2.stop) && decide (iv2.start < iv.stop)) with
    | some iv2 => simp
    | none =>
      simp only [ne_eq]
      apply ih
      intro hrest
      apply h
      rw [NoOverlaps, List.pairwise_cons]
      refine ⟨?_, hrest⟩
      intro x hx
      rw [List.find?_eq_none] at hfind
      have := hfind x hx
      simp only [overlaps, not_and]
      intro h1 h2
      simp [h1, h2] at this

/-- The appended reservation does not overlap anything it is appended to
when it starts at or after every stored end. -/
theorem noOverlaps_append_late {l : List Interval} {s e : Nat} (h : NoOverlaps l)
    (hlate : ∀ iv ∈ l, iv.stop ≤ s) : NoOverlaps (l ++ [⟨s, e⟩]) := by
  rw [NoOverlaps, List.pairwise_append]
  refine ⟨h, List.pairwise_singleton _ _, ?_⟩
  intro a ha b hb
  rcases List.mem_singleton.mp hb with rfl
  intro hov
  have h2 : a.stop ≤ s := hlate a ha
  have h3 : s < a.stop := hov.2
  omega

theorem foldl_maxStop_ge_acc (l : List Interval) (acc : Nat) :
    acc ≤ l.foldl (fun latest iv => if latest < iv.stop then iv.stop else latest) acc := by
  induction l generalizing acc with
  | nil => simp
  | cons a rest ih =>
    simp only [List.foldl_cons]
    have := ih (if acc < a.stop then a.stop else acc)
    have hbase : acc ≤ if acc < a.stop then a.stop else acc := by split <;> omega
    omega

theorem foldl_maxStop_ge_mem {iv : Interval} {l : List Interval} (hmem : iv ∈ l) (acc : Nat) :
    iv.stop ≤ l.foldl (fun latest iv => if latest < iv.stop then iv.stop else latest) acc := by
  induction l generalizing acc with
  | nil => cases hmem
  | cons a rest ih =>
    simp only [List.foldl_cons]
    rcases List.mem_cons.mp hmem with rfl | h'
    · have h1 : iv.stop ≤ if acc < iv.stop then iv.stop else acc := by split <;> omega
      have h2 := foldl_maxStop_ge_acc rest (if acc < iv.stop then iv.stop else acc)
      omega
    · exact ih h' _

theorem getEarliestFreeTime_ge_stops (st : EngineState) (machine : String) :
    ∀ iv ∈ lookupIv st.machineSchedule machine, iv.stop ≤ getEarliestFreeTime st machine := by
  intro iv hmem
  simp only [getEarliestFreeTime]
  have hne : (lookupIv st.machineSchedule machine).isEmpty = false := by
    cases hl : lookupIv st.machineSchedule machine with
    | nil => rw [hl] at hmem; cases hmem
    | cons a rest => simp [List.isEmpty]
  rw [hne]
  simp only [Bool.false_eq_true, if_false]
  exact foldl_maxStop_ge_mem hmem 0

/-- The per-resource no-double-booking invariant over a whole schedule map. -/
def NoOvSched (s : Sched) : Prop := ∀ k, NoOverlaps (lookupIv s k)

/-- The global ledger invariant: no machine and no operator holds two
overlapping intervals. -/
def StInv (st : EngineState) : Prop :=
  NoOvSched st.machineSchedule ∧ NoOvSched st.operatorSchedule

theorem noOvSched_setIv {s : Sched} {k : String} {v : List Interval}
    (hs : NoOvSched s) (hv : NoOverlaps v) : NoOvSched (setIv s k v) := by
  intro k'
  by_cases h : k' = k
  · rw [h, lookupIv_setIv_self]; exact hv
  · rw [lookupIv_setIv_other _ _ _ _ h]; exact hs k'

theorem hasConflict_false_of_late {st : EngineState} {machine : String} {s e : Nat}
    (hlate : ∀ iv ∈ lookupIv st.machineSchedule machine, iv.stop ≤ s) :
    hasConflict st machine ⟨s, e⟩ = false := by
  simp only [hasConflict, List.any_eq_false]
  intro iv hmem
  have := hlate iv hmem
  simp only [Bool.and_eq_true, decide_eq_true_eq, not_and]
  intro h1
  omega

theorem reserveMachine_machineSchedule (st : EngineState) (machine : String) (s e : Nat) :
    (reserveMachine st machine s e).1.machineSchedule =
      setIv st.machineSchedule machine
        (sortIntervals (lookupIv st.machineSchedule machine ++ [⟨s, e⟩])) := rfl

theorem reserveMachine_operatorSchedule (st : EngineState) (machine : String) (s e : Nat) :
    (reserveMachine st machine s e).1.operatorSchedule = st.operatorSchedule := rfl

theorem reserveMachine_effectiveStart (st : EngineState) (machine : String) (s e : Nat) :
    (reserveMachine st machine s e).1.effectiveStart = st.effectiveStart := rfl

/-- A reservation starting at or after every stored end of the machine is
appended without creating an overlap; the defensive validation passes and the
ledger invariant is preserved. -/
theorem reserveMachine_late_ok (st : EngineState) (machine : String) (s e : Nat)
    (hinv : NoOvSched st.machineSchedule)
    (hlate : ∀ iv ∈ lookupIv st.machineSchedule machine, iv.stop ≤ s) :
    NoOvSched (reserveMachine st machine s e).1.machineSchedule ∧
      (reserveMachine st machine s e).2 = Except.ok () := by
  have hnew : NoOverlaps (lookupIv st.machineSchedule machine ++ [⟨s, e⟩]) :=
    noOverlaps_append_late (hinv machine) hlate
  have hsorted : NoOverlaps (sortIntervals (lookupIv st.machineSchedule machine ++ [⟨s, e⟩])) :=
    noOverlaps_sortIntervals hnew
  constructor
  · rw [reserveMachine_machineSchedule]
    exact noOvSched_setIv hinv hsorted
  · show validateMachineSchedule _ machine = Except.ok ()
    simp only [validateMachineSchedule, reserveMachine_machineSchedule, lookupIv_setIv_self]
    rw [findOverlapPair_eq_none hsorted]

/-- reserveMachine appends before it validates: the requested interval is in
the stored schedule of the returned state whether or not the validation
raises.  (No-rollback behaviour of the source.) -/
theorem reserveMachine_no_rollback (st : EngineState) (machine : String) (s e : Nat) :
    Interval.mk s e ∈ lookupIv (reserveMachine st machine s e).1.machineSchedule machine ∧
      ∀ iv ∈ lookupIv st.machineSchedule machine,
        iv ∈ lookupIv (reserveMachine st machine s e).1.machineSchedule machine := by
  rw [reserveMachine_machineSchedule, lookupIv_setIv_self]
  have hperm := stableSortBy_perm (fun a b => decide (a.start < b.start))
    (lookupIv st.machineSchedule machine ++ [⟨s, e⟩])
  constructor
  · exact hperm.mem_iff.mpr (List.mem_append_right _ (List.mem_singleton.mpr rfl))
  · intro iv hmem
    exact hperm.mem_iff.mpr (List.mem_append_left _ hmem)

/-- A conflicting reservation makes the defensive validation raise the
scheduling-integrity defect (while the interval stays stored, by
reserveMachine_no_rollback). -/
theorem reserveMachine_conflict_error (st : EngineState) (machine : String) (s e : Nat)
    (hc : hasConflict st machine ⟨s, e⟩ = true) :
    (reserveMachine st machine s e).2 =
      Except.error ("Machine " ++ machine ++
        " has overlapping bookings - scheduling integrity violated") := by
  obtain ⟨iv, hmem, hov⟩ := List.any_eq_true.mp hc
  simp only [Bool.and_eq_true, decide_eq_true_eq] at hov
  have hnot : ¬ NoOverlaps (sortIntervals (lookupIv st.machineSchedule machine ++ [⟨s, e⟩])) := by
    intro hno
    have hperm := stableSortBy_perm (fun a b => decide (a.start < b.start))
      (lookupIv st.machineSchedule machine ++ [⟨s, e⟩])
    have happ : NoOverlaps (lookupIv st.machineSchedule machine ++ [⟨s, e⟩]) :=
      noOverlaps_of_perm hperm hno
    rw [NoOverlaps, List.pairwise_append] at happ
    have := happ.2.2 iv hmem ⟨s, e⟩ (List.mem_singleton.mpr rfl)
    exact this ⟨hov.2, hov.1⟩
  show validateMachineSchedule _ machine = _
  simp only [validateMachineSchedule, reserveMachine_machineSchedule, lookupIv_setIv_self]
  cases hfind : findOverlapPair
      (sortIntervals (lookupIv st.machineSchedule machine ++ [⟨s, e⟩])) with
  | some pair => rfl
  | none => exact absurd hfind (findOverlapPair_ne_none hnot)

theorem reserveOperator_machineSchedule (fuel : Nat) (st : EngineState) (operator : String)
    (s e : Nat) :
    (reserveOperator fuel st operator s e).machineSchedule = st.machineSchedule := by
  induction fuel generalizing st operator s e with
  | zero => rfl
  | succ fuel ih =>
    rw [reserveOperator]
    split
    · split
      · split
        · apply ih
        · apply ih
      · apply ih
    · rfl

theorem reserveOperator_effectiveStart (fuel : Nat) (st : EngineState) (operator : String)
    (s e : Nat) :
    (reserveOperator fuel st operator s e).effectiveStart = st.effectiveStart := by
  induction fuel generalizing st operator s e with
  | zero => rfl
  | succ fuel ih =>
    rw [reserveOperator]
    split
    · split
      · split
        · apply ih
        · apply ih
      · apply ih
    · rfl

/-- reserveOperator preserves the operator no-double-booking invariant for
every fuel: the only branch that stores an interval is the branch whose
conflict scan found no overlap. -/
theorem reserveOperator_preserves (fuel : Nat) (st : EngineState) (operator : String)
    (s e : Nat) (hinv : NoOvSched st.operatorSchedule) :
    NoOvSched (reserveOperator fuel st operator s e).operatorSchedule := by
  induction fuel generalizing st operator s e with
  | zero => exact hinv
  | succ fuel ih =>
    rw [reserveOperator]
    split
    · split
      · split
        · exact ih _ _ _ _ hinv
        · exact ih _ _ _ _ hinv
      · exact ih _ _ _ _ hinv
    · rename_i hfind
      apply noOvSched_setIv hinv
      apply noOverlaps_sortIntervals
      rw [NoOverlaps, List.pairwise_append]
      refine ⟨hinv operator, List.pairwise_singleton _ _, ?_⟩
      intro a ha b hb
      rcases List.mem_singleton.mp hb with rfl
      rw [List.find?_eq_none] at hfind
      have := hfind a ha
      simp only [Bool.and_eq_true, decide_eq_true_eq, not_and] at this
      intro hov
      exact this hov.2 hov.1

/-- Witness for custom_batch_size_mode at quantity 700 and custom size 300:
the carved quantities are 300, 300, 100. -/
theorem custom_batch_size_mode_witness :
    ((calculateBatchSplitting 700 100 Priority.Normal BatchMode.customSize
        (some 300)).map Batch.quantity =
      List.replicate (700 / effectiveCustomSize (some 300))
        (effectiveCustomSize (some 300)) ++
        (if 700 % effectiveCustomSize (some 300) = 0 then []
         else [700 % effectiveCustomSize (some 300)])) ∧
    calculateBatchSplitting 700 100 Priority.Normal BatchMode.customSize none =
      calculateBatchSplitting 700 100 Priority.Normal BatchMode.customSize (some 300) ∧
    calculateBatchSplitting 700 100 Priority.Normal BatchMode.customSize (some 0) =
      calculateBatchSplitting 700 100 Priority.Normal BatchMode.customSize (some 300) :=
  custom_batch_size_mode 700 100 Priority.Normal (some 300) (by decide)

/-! ## Orders and operations -/

/-- Operation master data (one row of the operations array of an order). -/
structure Operation where
  OperationSeq : Nat
  OperationName : String
  SetupTime_Min : Nat
  CycleTime_Min : Nat
  EligibleMachines : Option (List String)
  Minimum_BatchSize : Option Nat
deriving DecidableEq, Repr

/-- Order input record.  The model requires a valid due timestamp: the
source compares NaN dates when the due date is missing or unparsable, which
makes the EDD comparator and the lateness checks vacuous there. -/
structure Order where
  partNumber : String
  quantity : Nat
  priority : Priority
  dueDate : Nat
  dueDateText : String
  operations : List Operation
  batchMode : BatchMode
  customBatchSize : Option Nat
  breakdownMachine : Option String
  setupWindow : Option (Nat × Nat)
deriving Repr

/-! ## Setup window handling -/

/-- parseSetupWindow: structured window with the 06:00-22:00 default (string
parsing happens at the boundary and arrives structured here). -/
def parseSetupWindow : Option (Nat × Nat) → Nat × Nat
  | none => (6, 22)
  | some w => w

/-- The effective setup window: order override, else global setting, else
the 06:00-22:00 default. -/
def effSetupWindow (gs : GlobalSettings) (od : Order) : Nat × Nat :=
  parseSetupWindow (od.setupWindow.orElse fun _ => gs.setupWindow)

/-- enforceSetupWindow: move a time before the window start to the window
start of the same day, a time at or past the window end to the window start
of the next day, and keep an in-window time unchanged. -/
def enforceSetupWindow (gs : GlobalSettings) (od : Order) (time : Nat) : Nat :=
  let w := effSetupWindow gs od
  let hour := hourOf time
  if hour < w.1 then atHour time w.1
  else if w.2 ≤ hour then nextDayAtHour time w.1
  else time

/-- validateSetupWithinWindow: when the setup end falls after the window end
(strictly past the end hour, or at the end hour with nonzero minutes) the
whole setup is moved to the next-day window start, and the returned end is
that start plus the original span. -/
def validateSetupWithinWindow (gs : GlobalSettings) (od : Order) (setupStart setupEnd : Nat) :
    Nat :=
  let w := effSetupWindow gs od
  let endHour := hourOf setupEnd
  if w.2 < endHour ∨ (endHour = w.2 ∧ 0 < minuteOf setupEnd) then
    nextDayAtHour setupStart w.1 + (setupEnd - setupStart)
  else setupEnd

theorem enforceSetupWindow_ge (gs : GlobalSettings) (od : Order) (time : Nat) :
    time ≤ enforceSetupWindow gs od time := by
  simp only [enforceSetupWindow]
  split
  · exact le_atHour_of_lt_hour (by assumption)
  · split
    · exact Nat.le_of_lt (lt_nextDayAtHour time _)
    · exact Nat.le_refl time

/-! ## Timing Calculator -/

/-- Result of calculatePreliminaryTiming: machine-independent timing. -/
structure PrelimTiming where
  setupStart : Nat
  setupEnd : Nat
  runStart : Nat
  runEnd : Nat
deriving Repr

/-- calculatePreliminaryTiming: window-clipped setup followed by the
theoretical continuous run (no machine constraints).  The operator parameter
of the source is unused by its body and omitted. -/
def calculatePreliminaryTiming (gs : GlobalSettings) (od : Order) (operation : Operation)
    (batchQty : Nat) (earliestStartTime : Nat) : PrelimTiming :=
  let setupStartTime := enforceSetupWindow gs od earliestStartTime
  let setupEndTime :=
    validateSetupWithinWindow gs od setupStartTime (setupStartTime + operation.SetupTime_Min)
  let runStart := setupEndTime
  let runEnd := runStart + batchQty * operation.CycleTime_Min
  ⟨setupStartTime, setupEndTime, runStart, runEnd⟩

/-- Result of calculateOperationTiming. -/
structure OpTiming where
  setupStartTime : Nat
  setupEndTime : Nat
  runStartTime : Nat
  runEndTime : Nat
  pieceCompletionTimes : List Nat
  pieceStartTimes : List Nat
  firstPieceDone : Nat
  totalWorkTime : Nat
  totalPausedTime : Nat
deriving Repr

/-- The strict piece-level loop: piece i starts at the later of the
corresponding previous-operation piece completion (when present) and the
running machine time, and occupies the machine for one cycle. -/
def pieceCompletionLoop (prevPieces : Option (List Nat)) (cycle : Nat) (batchQty : Nat)
    (setupEnd : Nat) : List Nat :=
  ((List.range batchQty).foldl (fun (acc : List Nat × Nat) i =>
    let cur := acc.2
    let pieceStart :=
      match prevPieces with
      | some l =>
        match l.get? i with
        | some p => max p cur
        | none => cur
      | none => cur
    let pieceEnd := pieceStart + cycle
    (acc.1 ++ [pieceEnd], pieceEnd)) ([], setupEnd)).1

/-- The piece-flow trigger step of calculateOperationTiming: when the first
piece of the previous operation is not ready yet, setup may still start early
in parallel provided it completes by then; otherwise the start waits for
that first piece. -/
def pieceFlowStart (setupMin : Nat) (s0 : Nat) (prevPieces : Option (List Nat)) : Nat :=
  match prevPieces with
  | some l =>
    match l.head? with
    | some firstPieceReady =>
      if s0 < firstPieceReady then
        if s0 + setupMin ≤ firstPieceReady then s0
        else max s0 firstPieceReady
      else s0
    | none => s0
  | none => s0

theorem pieceFlowStart_ge (m s0 : Nat) (pp : Option (List Nat)) :
    s0 ≤ pieceFlowStart m s0 pp := by
  simp only [pieceFlowStart]
  repeat' split
  all_goals omega

/-- Either the early-start condition held at s0, or the piece-flow start is
already past the first-piece-ready time. -/
theorem pieceFlowStart_cases (m s0 f : Nat) (rest : List Nat) :
    s0 + m ≤ f ∨ f ≤ pieceFlowStart m s0 (some (f :: rest)) := by
  simp only [pieceFlowStart, List.head?]
  by_cases h1 : s0 < f
  · by_cases h2 : s0 + m ≤ f
    · exact Or.inl h2
    · right
      simp only [h1, if_true, h2, if_false]
      omega
  · right
    simp only [h1, if_false]
    omega

/-- The final setup start of calculateOperationTiming: the piece-flow start,
maxed with the machine earliest-free time, clipped into the setup window. -/
def finalSetupStart (gs : GlobalSettings) (od : Order) (st : EngineState)
    (setupMin : Nat) (s0 : Nat) (prevPieces : Option (List Nat)) (machine : String) : Nat :=
  enforceSetupWindow gs od
    (max (pieceFlowStart setupMin s0 prevPieces) (getEarliestFreeTime st machine))

theorem finalSetupStart_ge_free (gs : GlobalSettings) (od : Order) (st : EngineState)
    (setupMin s0 : Nat) (pp : Option (List Nat)) (machine : String) :
    getEarliestFreeTime st machine ≤ finalSetupStart gs od st setupMin s0 pp machine :=
  Nat.le_trans (Nat.le_max_right _ _) (enforceSetupWindow_ge gs od _)

theorem finalSetupStart_ge_earliest (gs : GlobalSettings) (od : Order) (st : EngineState)
    (setupMin s0 : Nat) (pp : Option (List Nat)) (machine : String) :
    s0 ≤ finalSetupStart gs od st setupMin s0 pp machine :=
  Nat.le_trans (pieceFlowStart_ge setupMin s0 pp)
    (Nat.le_trans (Nat.le_max_left _ _) (enforceSetupWindow_ge gs od _))

/-- calculateOperationTiming: piece-flow trigger (with the early parallel
setup allowance), machine availability, window clipping, the piece loop, and
the run-end monotonicity adjustment against the previous operation.  An
empty batch makes the source dereference an undefined first piece and crash;
the model returns that crash as an error. -/
def calculateOperationTiming (gs : GlobalSettings) (st : EngineState) (operation : Operation)
    (od : Order) (batchQty : Nat) (machine : String) (earliestStartTime : Nat)
    (prevPieces : Option (List Nat)) (prevRunEnd : Option Nat) : Except String OpTiming :=
  let s3 := finalSetupStart gs od st operation.SetupTime_Min earliestStartTime prevPieces machine
  let setupEnd := validateSetupWithinWindow gs od s3 (s3 + operation.SetupTime_Min)
  let cycle := operation.CycleTime_Min
  if batchQty = 0 then
    Except.error "Cannot read properties of undefined"
  else
    let pieces := pieceCompletionLoop prevPieces cycle batchQty setupEnd
    let runStart := setupEnd
    let runEnd0 := pieces.getLastD 0
    let adjusted :=
      match prevRunEnd with
      | some pre =>
        if runEnd0 < pre then
          let newEnd := pre + cycle
          (newEnd, pieces.map fun t => t + (newEnd - runEnd0))
        else (runEnd0, pieces)
      | none => (runEnd0, pieces)
    let pieceStartTimes := (List.range batchQty).map fun i =>
      let pieceReady :=
        match prevPieces with
        | some l => if l.isEmpty then setupEnd else (l.get? i).getD setupEnd
        | none => setupEnd
      max pieceReady (setupEnd + i * cycle)
    Except.ok
      { setupStartTime := s3
        setupEndTime := setupEnd
        runStartTime := runStart
        runEndTime := adjusted.1
        pieceCompletionTimes := adjusted.2
        pieceStartTimes := pieceStartTimes
        firstPieceDone := adjusted.2.headD 0
        totalWorkTime := batchQty * cycle
        totalPausedTime := 0 }

/-- The computed setup start never precedes the earliest free time of the
chosen machine: the start is maxed with it before the window shifts, and the
window shifts only move forward.  This is what keeps reserveMachine free of
overlaps on every reachable state. -/
theorem calculateOperationTiming_setupStart_eq {gs st operation od batchQty machine
    earliestStartTime prevPieces prevRunEnd timing}
    (h : calculateOperationTiming gs st operation od batchQty machine earliestStartTime
      prevPieces prevRunEnd = Except.ok timing) :
    timing.setupStartTime =
      finalSetupStart gs od st operation.SetupTime_Min earliestStartTime prevPieces machine := by
  revert h
  simp only [calculateOperationTiming]
  split
  · intro h; cases h
  · intro h
    injection h with h2
    rw [← h2]

theorem calculateOperationTiming_setupStart_ge_free {gs st operation od batchQty machine
    earliestStartTime prevPieces prevRunEnd timing}
    (h : calculateOperationTiming gs st operation od batchQty machine earliestStartTime
      prevPieces prevRunEnd = Except.ok timing) :
    getEarliestFreeTime st machine ≤ timing.setupStartTime := by
  rw [calculateOperationTiming_setupStart_eq h]
  exact finalSetupStart_ge_free ..

/-- The computed setup start never precedes the requested earliest start. -/
theorem calculateOperationTiming_setupStart_ge_earliest {gs st operation od batchQty machine
    earliestStartTime prevPieces prevRunEnd timing}
    (h : calculateOperationTiming gs st operation od batchQty machine earliestStartTime
      prevPieces prevRunEnd = Except.ok timing) :
    earliestStartTime ≤ timing.setupStartTime := by
  rw [calculateOperationTiming_setupStart_eq h]
  exact finalSetupStart_ge_earliest ..

/-- The run-end monotonicity adjustment: the returned run end is never below
a supplied previous run end. -/
theorem calculateOperationTiming_runEnd_ge_prev {gs st operation od batchQty machine
    earliestStartTime prevPieces pre timing}
    (h : calculateOperationTiming gs st operation od batchQty machine earliestStartTime
      prevPieces (some pre) = Except.ok timing) :
    pre ≤ timing.runEndTime := by
  revert h
  simp only [calculateOperationTiming]
  split
  · intro h; cases h
  · intro h
    injection h with h2
    rw [← h2]
    simp only
    split
    · omega
    · omega

/-- When the returned setup start still precedes the first-piece-ready time
of the previous operation, the early-start branch must have fired: the setup
measured from the requested earliest start fits before that time.  (The
final setup end may still exceed it, because the machine-availability and
window adjustments happen after the early-start check.) -/
theorem calculateOperationTiming_early_start {gs st operation od batchQty machine
    earliestStartTime rest f prevRunEnd timing}
    (h : calculateOperationTiming gs st operation od batchQty machine earliestStartTime
      (some (f :: rest)) prevRunEnd = Except.ok timing)
    (hlt : timing.setupStartTime < f) :
    earliestStartTime + operation.SetupTime_Min ≤ f := by
  rcases pieceFlowStart_cases operation.SetupTime_Min earliestStartTime f rest with h1 | h1
  · exact h1
  · exfalso
    have hchain : f ≤ timing.setupStartTime := by
      rw [calculateOperationTiming_setupStart_eq h]
      calc f ≤ _ := h1
        _ ≤ max _ (getEarliestFreeTime st machine) := Nat.le_max_left _ _
        _ ≤ _ := enforceSetupWindow_ge gs od _
    omega

/-! ## Production window (constructed 24x7 and never reassigned) -/

structure ProdConstraint where
  actualRunStart : Nat
  actualRunEnd : Nat
  paused : Bool
deriving Repr

/-- The production window of the engine: the constructor sets the 24x7
window and no live code path ever reassigns it (the productionWindow entry
of the settings object is never copied onto the engine). -/
def productionWindowIs24x7 : Bool := true

/-- applyProductionWindowConstraints: the identity under the 24x7 window;
the pause branch is retained for fidelity but is unreachable because the
window is never reconfigured. -/
def applyProductionWindowConstraints (_machine : String) (runStart runEnd runDuration : Nat) :
    ProdConstraint :=
  if productionWindowIs24x7 then ⟨runStart, runEnd, false⟩
  else
    let windowEnd := atHour runStart 24
    if windowEnd < runEnd then
      let workDone : Int := (windowEnd : Int) - (runStart : Int)
      let remaining : Int := (runDuration : Int) - workDone
      let nextWindowStart := nextDayAtHour windowEnd 0
      ⟨runStart, ((nextWindowStart : Int) + remaining).toNat, true⟩
    else ⟨runStart, runEnd, false⟩

theorem applyProductionWindowConstraints_id (machine : String) (runStart runEnd runDuration : Nat) :
    applyProductionWindowConstraints machine runStart runEnd runDuration =
      ⟨runStart, runEnd, false⟩ := rfl

/-! ## Operator shift plumbing and spillover -/

/-- isOperatorInCorrectShift with an end time: cross-day setups are
rejected, then the quirky hour tests of the source are applied verbatim (a
span counts as morning when it starts at hour 6 or later and ends at hour 14
or earlier, with no upper bound on the start hour). -/
def isOperatorInCorrectShift (operator : String) (setupTime : Nat)
    (setupEndTime : Option Nat) : Bool :=
  let hour := hourOf setupTime
  match setupEndTime with
  | some se =>
    let endHour := hourOf se
    if !(sameDay setupTime se) then false
    else if 6 ≤ hour ∧ endHour ≤ 14 then ["A", "B"].contains operator
    else if 14 ≤ hour ∧ endHour ≤ 22 then ["C", "D"].contains operator
    else false
  | none =>
    if 6 ≤ hour ∧ hour < 14 then ["A", "B"].contains operator
    else if 14 ≤ hour ∧ hour < 22 then ["C", "D"].contains operator
    else false

/-- isOperatorAvailable: no stored conflict and the correct shift covers the
whole window. -/
def isOperatorAvailable (st : EngineState) (operator : String) (startTime endTime : Nat) :
    Bool :=
  ((lookupIv st.operatorSchedule operator).all fun iv =>
    !(decide (startTime < iv.stop) && decide (iv.start < endTime))) &&
  isOperatorInCorrectShift operator startTime (some endTime)

/-- selectOperatorForTimeSlot: first available operator of the shift owning
the start hour, with the hardcoded A or C fallback. -/
def selectOperatorForTimeSlot (st : EngineState) (setupStart setupEnd : Nat) : String :=
  let startHour := hourOf setupStart
  let found :=
    if 6 ≤ startHour ∧ startHour < 14 then
      ["A", "B"].find? fun op => isOperatorAvailable st op setupStart setupEnd
    else if 14 ≤ startHour ∧ startHour < 22 then
      ["C", "D"].find? fun op => isOperatorAvailable st op setupStart setupEnd
    else none
  found.getD (if startHour < 14 then "A" else "C")

/-- findNextValidSetupSlot: clip the requested start into the 06:00-22:00
window, then push to the next day when the candidate end lands past hour 22
(the source compares getHours() with a strict greater, so only hour 23
triggers the push). -/
def findNextValidSetupSlot (requestedStart : Nat) (setupDurationMin : Nat) : Nat :=
  let c0 :=
    if hourOf requestedStart < 6 then atHour requestedStart 6
    else if 22 ≤ hourOf requestedStart then nextDayAtHour requestedStart 6
    else requestedStart
  if 22 < hourOf (c0 + setupDurationMin) then nextDayAtHour c0 6 else c0

/-- getOperatorsForNextShift: morning hands over to C and D, afternoon to
the next-day A and B.  The source would crash on an unknown operator. -/
def getOperatorsForNextShift (currentOperator : String) : List String :=
  match operatorShifts currentOperator with
  | some sh =>
    match sh.kind with
    | .morning => ["C", "D"]
    | .afternoon => ["A", "B"]
  | none => []

/-- getNextValidShiftStart: the class of the source defines this method
twice and the later definition wins, so the effective behaviour is always
the next-day 06:00 morning start. -/
def getNextValidShiftStart (referenceTime : Nat) : Nat := nextDayAtHour referenceTime 6

/-- Result of handleSetupSpillover. -/
structure SpilloverResult where
  operator : String
  actualSetupStart : Nat
  actualSetupEnd : Nat
  spillover : Bool
deriving Repr

/-- handleSetupSpillover: window or shift violations are corrected to the
next valid slot with a re-selected operator; a setup crossing the shift end
hands the remainder to the first next-shift operator starting at the shift
boundary (which can move the start backward when the start hour already
equals the shift end hour). -/
def handleSetupSpillover (st : EngineState) (operator : String)
    (setupStart setupEnd setupDuration : Nat) : SpilloverResult :=
  let setupStartHour := hourOf setupStart
  let setupEndHour := hourOf setupEnd
  let isSetupWindowViolation :=
    setupStartHour < 6 ∨ 22 ≤ setupStartHour ∨ setupEndHour < 6 ∨ 22 < setupEndHour
  let isOperatorShiftViolation := !(isOperatorInCorrectShift operator setupStart (some setupEnd))
  if isSetupWindowViolation ∨ isOperatorShiftViolation = true then
    let nextValidStart :=
      if 14 ≤ setupStartHour ∧ setupStartHour < 22 then
        if 22 < setupEndHour then nextDayAtHour setupStart 6 else setupStart
      else findNextValidSetupSlot setupStart setupDuration
    let nextValidEnd := nextValidStart + setupDuration
    let correctedOperator := selectOperatorForTimeSlot st nextValidStart nextValidEnd
    ⟨correctedOperator, nextValidStart, nextValidEnd, true⟩
  else
    match operatorShifts operator with
    | none => ⟨operator, setupStart, setupEnd, false⟩
    | some sh =>
      let shiftEnd := atHour setupStart sh.stop
      if shiftEnd < setupEnd then
        let workDone : Int := (shiftEnd : Int) - (setupStart : Int)
        let remaining : Int := (setupDuration : Int) - workDone
        let nextShiftStart := atHour shiftEnd sh.stop
        match getOperatorsForNextShift operator with
        | nextOp :: _ =>
          ⟨nextOp, nextShiftStart, ((nextShiftStart : Int) + remaining).toNat, true⟩
        | [] =>
          let nvs := getNextValidShiftStart setupStart
          ⟨operator, nvs, nvs + setupDuration, true⟩
      else ⟨operator, setupStart, setupEnd, false⟩

/-! ## Operator Selector -/

/-- Result of selectOptimalPerson: either an operator, or the
delayed-to-next-shift object (whose operator field is null in the source, so
the caller falls back to A). -/
inductive OperatorSel where
  | direct (operator : String)
  | delayedToNextShift (delayedStart : Nat)
deriving Repr

structure DelayedCandidate where
  operator : String
  priority : Int
  delay : Nat
deriving Repr

/-- selectOptimalPerson: delay to the next shift when nobody is on shift;
otherwise rank conflict-free on-shift operators by the auto-balancing
priority; otherwise rank shift-compatible delayed candidates by priority
then delay (the computed delay is discarded and only the operator
returned); otherwise fall back to the first on-shift operator (the
emergency 30 minute delay of the source is computed for logging only and
also discarded). -/
def selectOptimalPerson (st : EngineState) (setupStart setupEnd : Nat) : OperatorSel :=
  let operatorsOnShift := getOperatorsOnShift setupStart setupEnd
  if operatorsOnShift.isEmpty then
    OperatorSel.delayedToNextShift (getNextValidShiftStart setupStart)
  else
    match stableSortBy (fun a b => decide (a.priority < b.priority))
        (rankedOperatorCandidates st setupStart setupEnd) with
    | best :: _ => OperatorSel.direct best.operator
    | [] =>
      let setupDuration := setupEnd - setupStart
      let delayedCandidates := operatorsOnShift.filterMap fun operator =>
        let earliestFree := getEarliestOperatorFreeTime st operator setupStart
        let adjustedSetupStart := max setupStart earliestFree
        let adjustedSetupEnd := adjustedSetupStart + setupDuration
        if isOperatorOnShift operator adjustedSetupStart adjustedSetupEnd then
          let kind := ((operatorShifts operator).map ShiftDef.kind).getD ShiftKind.morning
          some { operator := operator
                 priority := calculateOperatorPriority operator
                   (getTotalOperatorSetupMinutes st operator)
                   (getOperatorSetupMinutesInShift st operator setupStart) kind
                 delay := adjustedSetupStart - setupStart : DelayedCandidate }
        else none
      match stableSortBy (fun a b =>
          decide (a.priority < b.priority) ||
            (decide (a.priority = b.priority) && decide (a.delay < b.delay)))
          delayedCandidates with
      | best :: _ => OperatorSel.direct best.operator
      | [] => OperatorSel.direct (operatorsOnShift.headD "A")

/-- Candidate of the ultra-aggressive strategy 1 (load-sorted operators). -/
structure LoadCandidate where
  operator : String
  load : Nat
  totalLoad : Nat
deriving Repr

/-- The ultra-aggressive conflict prevention block of scheduleOperation:
when the chosen operator conflicts, try load-sorted alternatives, then 1 to
15 minute micro-delays over any on-shift operator, then the priority-ranked
earliest-free fallback over all operators. -/
def resolveUltraConflict (st : EngineState) (operation : Operation) (actualOperator : String)
    (actualSetupStart actualSetupEnd : Nat) : String × Nat × Nat :=
  if hasOperatorConflict st actualOperator actualSetupStart actualSetupEnd then
    let operatorsOnShift := getOperatorsOnShift actualSetupStart actualSetupEnd
    let operatorsWithLoad := stableSortBy
      (fun a b => decide (a.load < b.load) ||
        (decide (a.load = b.load) && decide (a.totalLoad < b.totalLoad)))
      (operatorsOnShift.map fun op =>
        { operator := op
          load := getOperatorSetupMinutesInShift st op actualSetupStart
          totalLoad := getTotalOperatorSetupMinutes st op : LoadCandidate })
    match operatorsWithLoad.find? (fun c =>
        decide (c.operator ≠ actualOperator) &&
          !(hasOperatorConflict st c.operator actualSetupStart actualSetupEnd)) with
    | some c => (c.operator, actualSetupStart, actualSetupEnd)
    | none =>
      match firstSome ((List.range 15).map (· + 1)) (fun delayMinutes =>
        let ds := actualSetupStart + delayMinutes
        let de := actualSetupEnd + delayMinutes
        ((getOperatorsOnShift ds de).find? fun op =>
          !(hasOperatorConflict st op ds de)).map fun op => (op, ds, de)) with
      | some r => r
      | none =>
        let operatorCandidates := allPersons.filterMap fun op =>
          (operatorShifts op).map fun sh =>
            let earliestAvailable := getEarliestOperatorFreeTime st op actualSetupStart
            (({ operator := op
                priority := calculateOperatorPriority op (getTotalOperatorSetupMinutes st op)
                  (getOperatorSetupMinutesInShift st op earliestAvailable)
                  sh.kind } : OperatorCandidate), earliestAvailable)
        match stableSortBy (fun a b => decide (a.1.priority < b.1.priority))
            operatorCandidates with
        | best :: _ => (best.1.operator, best.2, best.2 + operation.SetupTime_Min)
        | [] => (actualOperator, actualSetupStart, actualSetupEnd)
  else (actualOperator, actualSetupStart, actualSetupEnd)

/-! ## Machine Selector -/

structure MachineCandidate where
  machine : String
  actualSetupStart : Nat
  actualRunEnd : Nat
  meetsDueDate : Bool
  delayMinutes : Nat
  canStartImmediately : Bool
  isUnusedMachine : Bool
  utilizationScore : Nat
  loadBalanceMinutes : Nat
deriving Repr

/-- Array.prototype.reduce without an initial value: fold from the first
element, replacing the best when the comparator says so (ties keep the
earlier element). -/
def reduceBest (better : α → α → Bool) : List α → Option α
  | [] => none
  | x :: xs => some (xs.foldl (fun best cur => if better cur best then cur else best) x)

/-- The priority-7 load balancing comparison: total workload compared in
hours with a 0.1 hour deadband, which on whole minutes is exactly a 6 minute
deadband; then utilization, then earliest start. -/
def machineBetter7 (cur best : MachineCandidate) : Bool :=
  if 6 < ((cur.loadBalanceMinutes : Int) - (best.loadBalanceMinutes : Int)).natAbs then
    decide (cur.loadBalanceMinutes < best.loadBalanceMinutes)
  else if cur.utilizationScore ≠ best.utilizationScore then
    decide (cur.utilizationScore < best.utilizationScore)
  else decide (cur.actualSetupStart < best.actualSetupStart)

/-- The priority-4 and priority-5 comparison: utilization, then delay. -/
def machineBetterUtilDelay (cur best : MachineCandidate) : Bool :=
  if cur.utilizationScore ≠ best.utilizationScore then
    decide (cur.utilizationScore < best.utilizationScore)
  else decide (cur.delayMinutes < best.delayMinutes)

/-- The priority-6 comparison: utilization, then earliest start. -/
def machineBetterUtilStart (cur best : MachineCandidate) : Bool :=
  if cur.utilizationScore ≠ best.utilizationScore then
    decide (cur.utilizationScore < best.utilizationScore)
  else decide (cur.actualSetupStart < best.actualSetupStart)

/-- selectOptimalMachine: breakdown filtering, candidate metrics, and the
seven-priority utilization-first selection cascade.  Returns none exactly
when the eligible list is empty (the source then returns undefined and the
caller throws the eligibility error). -/
def selectOptimalMachine (gs : GlobalSettings) (st : EngineState) (operation : Operation)
    (od : Order) (setupStart : Nat) : Option String :=
  let eligibleMachines := operation.EligibleMachines.getD allMachines
  let breakdownMachines :=
    match od.breakdownMachine with
    | some m => [m]
    | none => gs.breakdownMachines
  let availableMachines := eligibleMachines.filter fun m => !(breakdownMachines.contains m)
  if availableMachines.isEmpty then eligibleMachines.head?
  else
    let candidates := availableMachines.map fun machine =>
      let intervals := lookupIv st.machineSchedule machine
      let machineEarliestFree := getEarliestFreeTime st machine
      let actualSetupStart := max setupStart machineEarliestFree
      let actualSetupEnd := actualSetupStart + operation.SetupTime_Min
      let actualRunEnd := actualSetupEnd + od.quantity * operation.CycleTime_Min
      let delayMinutes := actualSetupStart - setupStart
      { machine := machine
        actualSetupStart := actualSetupStart
        actualRunEnd := actualRunEnd
        meetsDueDate := decide (actualRunEnd ≤ od.dueDate)
        delayMinutes := delayMinutes
        canStartImmediately := decide (delayMinutes ≤ 5)
        isUnusedMachine := intervals.isEmpty
        utilizationScore := intervals.length
        loadBalanceMinutes := (intervals.map fun iv => iv.stop - iv.start).sum
        : MachineCandidate }
    match reduceBest (fun cur best => decide (cur.delayMinutes < best.delayMinutes))
        (candidates.filter fun c => c.isUnusedMachine && c.canStartImmediately) with
    | some best => some best.machine
    | none =>
    match reduceBest (fun cur best => decide (cur.delayMinutes < best.delayMinutes))
        (candidates.filter fun c => c.isUnusedMachine && decide (c.delayMinutes ≤ 30)) with
    | some best => some best.machine
    | none =>
    match reduceBest (fun cur best => decide (cur.delayMinutes < best.delayMinutes))
        (candidates.filter fun c => c.isUnusedMachine) with
    | some best => some best.machine
    | none =>
    match reduceBest machineBetterUtilDelay
        (candidates.filter fun c => c.canStartImmediately && c.meetsDueDate) with
    | some best => some best.machine
    | none =>
    match reduceBest machineBetterUtilDelay
        (candidates.filter fun c => c.canStartImmediately) with
    | some best => some best.machine
    | none =>
    match reduceBest machineBetterUtilStart (candidates.filter fun c => c.meetsDueDate) with
    | some best => some best.machine
    | none =>
    match reduceBest machineBetter7 candidates with
    | some best => some best.machine
    | none =>
      reduceBest (fun cur best =>
        decide (getEarliestFreeTime st cur < getEarliestFreeTime st best)) availableMachines

/-! ## Order Scheduler -/

/-- formatDurationBreakdown: the elapsed span rendered as days, hours and
minutes; the work and paused arguments are accepted and ignored, as in the
source. -/
def formatDurationBreakdown (setupStart runEnd : Nat) (_workMinutes _holidayMinutes : Nat) :
    String :=
  let totalMinutes := runEnd - setupStart
  let days := totalMinutes / 1440
  let hours := totalMinutes % 1440 / 60
  let minutes := totalMinutes % 60
  let s := (if 0 < days then toString days ++ "D " else "") ++
    (if 0 < hours then toString hours ++ "H " else "") ++
    (if 0 < minutes then toString minutes ++ "M" else "")
  let t := s.trim
  if t = "" then "0M" else t

/-- Output row of scheduleOperation; the batch fields are filled in by
scheduleOrder after the call, and the due-date warning by the lateness
check. -/
structure OpResult where
  OperationSeq : Nat
  OperationName : String
  Machine : String
  Person : String
  SetupStart : Nat
  SetupEnd : Nat
  RunStart : Nat
  RunEnd : Nat
  actualSetupEnd : Nat
  actualRunEnd : Nat
  pieceCompletionTimes : List Nat
  firstPieceDone : Nat
  SetupTime_Min : Nat
  CycleTime_Min : Nat
  Batch_Qty : Nat
  Timing : String
  Batch_ID : String
  Batch_Index : Nat
  DueDateWarning : Option String
deriving Repr

/-- scheduleOperation: operator selection with delay handling, spillover
correction, ultra-aggressive conflict prevention, machine selection,
eligibility enforcement, final piece-level timing, production-window pass,
and the two reservations.  State flows only through reserveMachine and
reserveOperator; everything before them reads the incoming state. -/
def scheduleOperation (gs : GlobalSettings) (fuel : Nat) (st : EngineState)
    (operation : Operation) (od : Order) (batchQty : Nat)
    (previousSequenceFirstPieceDone : Option Nat) (previousOpRunEnd : Option Nat) :
    EngineState × Except String OpResult :=
  let eligibleMachines := operation.EligibleMachines.getD allMachines
  let earliestStartTime :=
    match previousSequenceFirstPieceDone with
    | some f => max st.effectiveStart f
    | none => st.effectiveStart
  let preliminary := calculatePreliminaryTiming gs od operation batchQty earliestStartTime
  let afterSel :=
    match selectOptimalPerson st preliminary.setupStart preliminary.setupEnd with
    | OperatorSel.delayedToNextShift delayedStart =>
      ("A", delayedStart, delayedStart + operation.SetupTime_Min)
    | OperatorSel.direct op => (op, preliminary.setupStart, preliminary.setupEnd)
  let spill := handleSetupSpillover st afterSel.1 afterSel.2.1 afterSel.2.2
    operation.SetupTime_Min
  let resolved := resolveUltraConflict st operation spill.operator spill.actualSetupStart
    spill.actualSetupEnd
  let actualOperator := resolved.1
  let actualSetupStart := resolved.2.1
  match selectOptimalMachine gs st operation od actualSetupStart with
  | none =>
    (st, Except.error ("Machine undefined is not eligible for part " ++ od.partNumber ++
      " operation " ++ toString operation.OperationSeq))
  | some selectedMachine =>
    if eligibleMachines.contains selectedMachine then
      match calculateOperationTiming gs st operation od batchQty selectedMachine
          actualSetupStart (previousSequenceFirstPieceDone.map fun f => [f])
          previousOpRunEnd with
      | Except.error e => (st, Except.error e)
      | Except.ok finalTiming =>
        let runDuration := operation.CycleTime_Min * batchQty
        let pc := applyProductionWindowConstraints selectedMachine finalTiming.runStartTime
          finalTiming.runEndTime runDuration
        let rm := reserveMachine st selectedMachine finalTiming.setupStartTime pc.actualRunEnd
        match rm.2 with
        | Except.error e => (rm.1, Except.error e)
        | Except.ok _ =>
          let st2 := reserveOperator fuel rm.1 actualOperator finalTiming.setupStartTime
            finalTiming.setupEndTime
          (st2, Except.ok
            { OperationSeq := operation.OperationSeq
              OperationName := operation.OperationName
              Machine := selectedMachine
              Person := actualOperator
              SetupStart := finalTiming.setupStartTime
              SetupEnd := finalTiming.setupEndTime
              RunStart := pc.actualRunStart
              RunEnd := pc.actualRunEnd
              actualSetupEnd := finalTiming.setupEndTime
              actualRunEnd := pc.actualRunEnd
              pieceCompletionTimes := finalTiming.pieceCompletionTimes
              firstPieceDone := finalTiming.firstPieceDone
              SetupTime_Min := operation.SetupTime_Min
              CycleTime_Min := operation.CycleTime_Min
              Batch_Qty := batchQty
              Timing := formatDurationBreakdown finalTiming.setupStartTime pc.actualRunEnd
                finalTiming.totalWorkTime finalTiming.totalPausedTime
              Batch_ID := ""
              Batch_Index := 0
              DueDateWarning := none })
    else
      (st, Except.error ("Machine " ++ selectedMachine ++ " is not eligible for part " ++
        od.partNumber ++ " operation " ++ toString operation.OperationSeq))

theorem reserveMachine_preserves_StInv (st : EngineState) (m : String) (s e : Nat)
    (hinv : StInv st) (hlate : getEarliestFreeTime st m ≤ s) :
    StInv (reserveMachine st m s e).1 := by
  constructor
  · exact (reserveMachine_late_ok st m s e hinv.1
      (fun iv hmem => Nat.le_trans (getEarliestFreeTime_ge_stops st m iv hmem) hlate)).1
  · rw [reserveMachine_operatorSchedule]
    exact hinv.2

theorem reserveOperator_preserves_StInv (fuel : Nat) (st : EngineState) (op : String)
    (s e : Nat) (hinv : StInv st) : StInv (reserveOperator fuel st op s e) := by
  constructor
  · rw [reserveOperator_machineSchedule]
    exact hinv.1
  · exact reserveOperator_preserves fuel st op s e hinv.2

/-- Writing into the person availability map (write-only state of the
engine). -/
def setPersonTime : List (String × Nat) → String → Nat → List (String × Nat)
  | [], k, v => [(k, v)]
  | (k', v') :: rest, k, v =>
    if k' == k then (k, v) :: rest else (k', v') :: setPersonTime rest k v

/-- The value-or-default idiom of the source (value || d), where zero and
absence are both falsy. -/
def jsOrDefault (v : Option Nat) (d : Nat) : Nat :=
  match v with
  | some 0 => d
  | some (k + 1) => k + 1
  | none => d

/-- The inner operation loop of scheduleOrder for one batch: each operation
is scheduled with the first-piece-done and run-end of the one before it, the
batch fields are attached to the result, and the person availability map is
advanced.  A thrown error aborts the loop but keeps the mutated state. -/
def scheduleOpsForBatch (gs : GlobalSettings) (fuel : Nat) (od : Order) (batch : Batch)
    (batchIndex : Nat) :
    List Operation → EngineState → List OpResult → Option Nat → Option Nat →
    EngineState × List OpResult × Except String Unit
  | [], st, acc, _, _ => (st, acc, Except.ok ())
  | operation :: rest, st, acc, fpd, pre =>
    match scheduleOperation gs fuel st operation od batch.quantity fpd pre with
    | (st', Except.error e) => (st', acc, Except.error e)
    | (st', Except.ok r0) =>
      let r := { r0 with
        Batch_ID := batch.batchId
        Batch_Qty := batch.quantity
        Batch_Index := batchIndex }
      let ps := setPersonTime st'.personSchedule r.Person r.actualSetupEnd
      let st2 := { st' with personSchedule := ps }
      scheduleOpsForBatch gs fuel od batch batchIndex rest st2 (acc ++ [r])
        (some r.firstPieceDone) (some r.actualRunEnd)

/-- The outer batch loop of scheduleOrder: batches in planner order, each
running the full operation sequence with batch-local piece-flow state. -/
def scheduleBatches (gs : GlobalSettings) (fuel : Nat) (od : Order)
    (operations : List Operation) :
    List (Nat × Batch) → EngineState → List OpResult →
    EngineState × List OpResult × Except String Unit
  | [], st, acc => (st, acc, Except.ok ())
  | (batchIndex, batch) :: rest, st, acc =>
    match scheduleOpsForBatch gs fuel od batch batchIndex operations st acc none none with
    | (st', acc', Except.error e) => (st', acc', Except.error e)
    | (st', acc', Except.ok ()) => scheduleBatches gs fuel od operations rest st' acc'

/-- scheduleOrder: reject an order without operations, sort operations by
sequence, split into batches, run every batch, then attach the due-date
warning and the will-be-late alert when the completion misses the due date.
The alert list is threaded through (the source mutates the array in
place). -/
def scheduleOrder (gs : GlobalSettings) (fuel : Nat) (st : EngineState) (od : Order)
    (alerts : List String) : EngineState × List String × Except String (List OpResult) :=
  if od.operations.isEmpty then
    (st, alerts, Except.error ("No operations found for part " ++ od.partNumber))
  else
    let operations :=
      stableSortBy (fun a b => decide (a.OperationSeq < b.OperationSeq)) od.operations
    let minBatchSize :=
      match operations.head? with
      | some op0 => jsOrDefault op0.Minimum_BatchSize 100
      | none => 100
    let batches := calculateBatchSplitting od.quantity minBatchSize od.priority od.batchMode
      od.customBatchSize
    match scheduleBatches gs fuel od operations batches.enum st [] with
    | (st', _, Except.error e) => (st', alerts, Except.error e)
    | (st', orderResults, Except.ok ()) =>
      match orderResults.getLast? with
      | none => (st', alerts, Except.error "Cannot read properties of undefined")
      | some lastOperation =>
        let orderCompletionTime := lastOperation.actualRunEnd
        if od.dueDate < orderCompletionTime then
          let lateHours := ceilDivNat (orderCompletionTime - od.dueDate) 60
          let lastOp := { lastOperation with
            DueDateWarning := some ("⚠️ " ++ toString lateHours ++ "h late") }
          let alerts' := alerts ++ ["⚠️ " ++ od.partNumber ++ " will be " ++
            toString lateHours ++ "h late (due " ++ od.dueDateText ++
            ") - consider splitting batch or reassigning machines"]
          (st', alerts', Except.ok (orderResults.dropLast ++ [lastOp]))
        else (st', alerts, Except.ok orderResults)

/-! ## Scheduling Run -/

/-- Flat output row pushed by runScheduling for each scheduled operation.
The source formats the four timestamps as local date-time strings; the
minute-granular round trip through that format is the identity, so the model
keeps them numeric. -/
structure Row where
  PartNumber : String
  Order_Quantity : Nat
  Priority : Priority
  Batch_ID : String
  Batch_Qty : Nat
  OperationSeq : Nat
  OperationName : String
  Machine : String
  Person : String
  SetupStart : Nat
  SetupEnd : Nat
  RunStart : Nat
  RunEnd : Nat
  Timing : String
  DueDate : Nat
  SetupTime_Min : Nat
  CycleTime_Min : Nat
  DurationBreakdown : String
deriving DecidableEq, Repr

/-- The EDD comparator of runScheduling: due date ascending, then priority
weight descending; anything else ties. -/
def orderLt (a b : Order) : Bool :=
  decide (a.dueDate < b.dueDate) ||
    (decide (a.dueDate = b.dueDate) &&
      decide (priorityWeight b.priority < priorityWeight a.priority))

/-- The stable EDD-then-priority sort of the run. -/
def sortOrdersEDD (orders : List Order) : List Order := stableSortBy orderLt orders

/-- Math.ceil of an integer division (toward positive infinity). -/
def jsCeilDiv (a b : Int) : Int := -((-a).fdiv b)

/-- Accumulator of the per-order loop of runScheduling. -/
structure RunAcc where
  st : EngineState
  allResults : List Row
  alerts : List String
  originalOrderResults : List (String × List OpResult)

/-- One iteration of the order loop: schedule the order, flatten its results
into rows, append the may-be-late alert, and on a thrown error convert it to
a failure alert and keep going with the mutated state. -/
def processOrder (gs : GlobalSettings) (fuel : Nat) (acc : RunAcc) (order : Order) : RunAcc :=
  match scheduleOrder gs fuel acc.st order acc.alerts with
  | (st', alerts', Except.error e) =>
    { acc with
      st := st'
      alerts := alerts' ++ ["❌ Failed to schedule " ++ order.partNumber ++ ": " ++ e] }
  | (st', alerts', Except.ok orderResults) =>
    let rows := orderResults.map fun r =>
      { PartNumber := order.partNumber
        Order_Quantity := order.quantity
        Priority := order.priority
        Batch_ID := if r.Batch_ID = "" then "B01" else r.Batch_ID
        Batch_Qty := if r.Batch_Qty = 0 then order.quantity else r.Batch_Qty
        OperationSeq := r.OperationSeq
        OperationName := r.OperationName
        Machine := r.Machine
        Person := r.Person
        SetupStart := r.SetupStart
        SetupEnd := r.SetupEnd
        RunStart := r.RunStart
        RunEnd := r.RunEnd
        Timing := r.Timing
        DueDate := order.dueDate
        SetupTime_Min := r.SetupTime_Min
        CycleTime_Min := r.CycleTime_Min
        DurationBreakdown := "" : Row }
    let alerts2 :=
      match orderResults.getLast? with
      | some lastOp =>
        if order.dueDate < lastOp.RunEnd then
          alerts' ++ ["⚠️ " ++ order.partNumber ++ " may be " ++
            toString (ceilDivNat (lastOp.RunEnd - order.dueDate) 60) ++ "h late (due " ++
            order.dueDateText ++ ")"]
        else alerts'
      | none => alerts'
    { st := st'
      allResults := acc.allResults ++ rows
      alerts := alerts2
      originalOrderResults := acc.originalOrderResults ++ [(order.partNumber, orderResults)] }

/-! ## Schedule Validator -/

/-- Sequential validation of a list, stopping at the first raised error (a
for loop whose body may throw). -/
def exceptForEach (f : α → Except String Unit) : List α → Except String Unit
  | [] => Except.ok ()
  | x :: xs =>
    match f x with
    | Except.error e => Except.error e
    | Except.ok () => exceptForEach f xs

/-- validateAllMachineSchedules: the defensive overlap check over every
machine of the ledger. -/
def validateAllMachineSchedules (st : EngineState) : Except String Unit :=
  exceptForEach (validateMachineSchedule st) allMachines

/-- The 5 minute tick times of one shift on the day of the reference time
(the source builds them from the current date with setHours). -/
def shiftTicks (now startH stopH : Nat) : List Nat :=
  ((List.range (stopH - startH)).map (startH + ·)).flatMap fun h =>
    (List.range 12).map fun j => atHour now h + 5 * j

/-- validateConcurrentSetupLimits: on every tick of each shift, the count of
that shift's operators with a stored setup covering the tick must not exceed
the operator count of the shift (each operator counts once, so the check can
never fire). -/
def validateConcurrentSetupLimits (st : EngineState) (now : Nat) : Except String Unit :=
  exceptForEach (fun shift =>
    exceptForEach (fun checkTime =>
      let activeSetups := (shift.2.2.filter fun op =>
        (lookupIv st.operatorSchedule op).any fun iv =>
          decide (iv.start ≤ checkTime) && decide (checkTime < iv.stop)).length
      if shift.2.2.length < activeSetups then
        Except.error "[CONCURRENT-SETUP-VIOLATION] too many concurrent setups"
      else Except.ok ())
      (shiftTicks now shift.1 shift.2.1))
    [(6, 14, ["A", "B"]), (14, 22, ["C", "D"])]

/-- validateAllOperatorSchedules: adjacent-overlap check per operator, then
the concurrent setup limit check. -/
def validateAllOperatorSchedules (st : EngineState) (now : Nat) : Except String Unit :=
  match exceptForEach (validateOperatorSchedule st) allPersons with
  | Except.error e => Except.error e
  | Except.ok () => validateConcurrentSetupLimits st now

/-- Adjacent overlap test on a start-sorted interval list, raising the given
message. -/
def adjacentOverlapCheck (msg : String) : List Interval → Except String Unit
  | a :: b :: rest =>
    if b.start < a.stop then Except.error msg
    else adjacentOverlapCheck msg (b :: rest)
  | _ => Except.ok ()

/-- Key grouping in first-seen order, as Object key insertion does. -/
def groupKeysInOrder (keys : List String) : List String :=
  keys.foldl (fun acc k => if acc.contains k then acc else acc ++ [k]) []

/-- validateOperatorShifts on the run rows. -/
def validateOperatorShifts (rows : List Row) : Except String Unit :=
  exceptForEach (fun row =>
    if isOperatorOnShift row.Person row.SetupStart row.SetupEnd then Except.ok ()
    else Except.error ("[SHIFT-VIOLATION] Operator " ++ row.Person ++
      " assigned setup outside shift")) rows

/-- validateOperatorOverlaps on the run rows: per operator, start-sorted
setup intervals must not overlap adjacently. -/
def validateOperatorOverlaps (rows : List Row) : Except String Unit :=
  exceptForEach (fun person =>
    adjacentOverlapCheck ("[OPERATOR-OVERLAP] Operator " ++ person ++ " has overlapping setups")
      (sortIntervals ((rows.filter fun r => r.Person == person).map fun r =>
        ⟨r.SetupStart, r.SetupEnd⟩)))
    (groupKeysInOrder (rows.map Row.Person))

/-- validateMachineExclusivity on the run rows: per machine, start-sorted
setup-to-run-end intervals must not overlap adjacently. -/
def validateMachineExclusivity (rows : List Row) : Except String Unit :=
  exceptForEach (fun machine =>
    adjacentOverlapCheck ("[MACHINE-OVERLAP] Machine " ++ machine ++
      " has overlapping operations")
      (sortIntervals ((rows.filter fun r => r.Machine == machine).map fun r =>
        ⟨r.SetupStart, r.RunEnd⟩)))
    (groupKeysInOrder (rows.map Row.Machine))

/-- validateConcurrentSetupCapacity on the run rows: on every tick of each
shift, at most two setups may be active across all rows. -/
def validateConcurrentSetupCapacity (rows : List Row) (now : Nat) : Except String Unit :=
  exceptForEach (fun shift =>
    exceptForEach (fun checkTime =>
      let activeSetups := (rows.filter fun row =>
        decide (row.SetupStart ≤ checkTime) && decide (checkTime < row.SetupEnd)).length
      if shift.2.2 < activeSetups then
        Except.error "[CONCURRENT-VIOLATION] too many concurrent setups"
      else Except.ok ())
      (shiftTicks now shift.1 shift.2.1))
    [(6, 14, 2), (14, 22, 2)]

/-- validateCompleteSchedule: the four row validators in sequence, any
raised error caught and returned as the violation list. -/
def validateCompleteSchedule (rows : List Row) (now : Nat) : Bool × List String :=
  let run : Except String Unit := do
    validateOperatorShifts rows
    validateOperatorOverlaps rows
    validateMachineExclusivity rows
    validateConcurrentSetupCapacity rows now
  match run with
  | Except.ok () => (true, [])
  | Except.error e => (false, [e])

/-- calculateFirstPieceDone of the validator: setup end plus one cycle. -/
def calculateFirstPieceDone (op : OpResult) : Nat := op.SetupEnd + op.CycleTime_Min

/-- The auto-fix of a piece-flow violation: shift the operation to the
required start and recompute a continuous run. -/
def adjustOperationForPieceFlowViolation (op : OpResult) (required : Nat) : OpResult :=
  let setupDuration := op.SetupTime_Min
  let newSetupEnd := required + setupDuration
  let batchQty := if op.Batch_Qty = 0 then 1 else op.Batch_Qty
  let newRunEnd := newSetupEnd + op.CycleTime_Min * batchQty
  { op with
    SetupStart := required
    SetupEnd := newSetupEnd
    RunStart := newSetupEnd
    RunEnd := newRunEnd
    Timing := formatDurationBreakdown required newRunEnd
      (setupDuration + op.CycleTime_Min * batchQty) 0 }

/-- validatePieceFlowTriggers: walk consecutive results, auto-fixing any
operation whose setup starts before the recomputed first-piece-done of its
(possibly already fixed) predecessor.  The source mutates the per-order
result objects, which are not part of the returned rows; the run computes
this and discards it. -/
def validatePieceFlowTriggers (orderResults : List OpResult) : List OpResult :=
  let rec go (prev : OpResult) : List OpResult → List OpResult
    | [] => []
    | cur :: rest =>
      let prevFPD := calculateFirstPieceDone prev
      let cur2 :=
        if cur.SetupStart < prevFPD then adjustOperationForPieceFlowViolation cur prevFPD
        else cur
      cur2 :: go cur2 rest
  match orderResults with
  | [] => []
  | first :: rest => first :: go first rest

/-! ## runScheduling -/

structure RunSummary where
  totalOrders : Nat
  totalOperations : Nat
  completedSuccessfully : Int
deriving DecidableEq, Repr

structure RunResult where
  rows : List Row
  alerts : List String
  summary : RunSummary
deriving DecidableEq, Repr

/-- String.includes of the source. -/
def containsSubstr (s pat : String) : Bool := decide (2 ≤ (s.splitOn pat).length)

/-- The final-validation phase of runScheduling: ledger validators (whose
thrown errors reach the top-level catch, which discards rows and alerts and
returns the single engine-error alert), the discarded piece-flow pass, the
comprehensive row validation surfaced as an alert, the per-row duration
breakdown, and the summary. -/
def finalizeRun (ordersCount sortedCount : Nat) (st : EngineState) (allResults : List Row)
    (alerts : List String) (originalOrderResults : List (String × List OpResult))
    (now : Nat) : RunResult :=
  let validation : Except String (Bool × List String) := do
    validateAllMachineSchedules st
    validateAllOperatorSchedules st now
    let _pieceFlow := originalOrderResults.map fun pr => validatePieceFlowTriggers pr.2
    pure (validateCompleteSchedule allResults now)
  match validation with
  | Except.error e =>
    { rows := []
      alerts := ["❌ Scheduling engine error: " ++ e]
      summary := { totalOrders := 0, totalOperations := 0, completedSuccessfully := 0 } }
  | Except.ok (valid, violations) =>
    let alerts2 :=
      if valid then alerts
      else alerts ++ ["❌ Schedule validation failed: " ++ String.intercalate ", " violations]
    let rows := allResults.map fun r =>
      let db := formatDurationBreakdown r.SetupStart r.RunEnd
        (r.SetupTime_Min + r.CycleTime_Min * r.Batch_Qty) 0
      { r with DurationBreakdown := db }
    { rows := rows
      alerts := alerts2
      summary := { totalOrders := ordersCount
                   totalOperations := rows.length
                   completedSuccessfully := (sortedCount : Int) -
                     ((alerts2.filter fun a => containsSubstr a "❌").length : Int) } }

/-- The per-order loop of runScheduling, exposing the engine state and the
raw accumulators (runScheduling itself only returns the result record). -/
def runSchedulingAcc (ordersData : List Order) (gs : GlobalSettings) (now : Nat)
    (fuel : Nat) : RunAcc :=
  let engine := initEngine gs now
  let sortedOrders := sortOrdersEDD ordersData
  let urgent := sortedOrders.filter fun o =>
    jsCeilDiv ((o.dueDate : Int) - (now : Int)) 1440 ≤ 2
  let alerts0 : List String :=
    if urgent.isEmpty then []
    else ["🚨 " ++ toString urgent.length ++
      " urgent orders detected - scheduler will prioritize these for on-time delivery"]
  sortedOrders.foldl (processOrder gs fuel)
    { st := engine, allResults := [], alerts := alerts0, originalOrderResults := [] }

/-- runScheduling: EDD sort, urgency alert, per-order loop with order-level
error containment, final validation, and the returned result record. -/
def runScheduling (ordersData : List Order) (gs : GlobalSettings) (now : Nat)
    (fuel : Nat) : RunResult :=
  let acc := runSchedulingAcc ordersData gs now fuel
  finalizeRun ordersData.length (sortOrdersEDD ordersData).length acc.st acc.allResults
    acc.alerts acc.originalOrderResults now

/-- scheduleOperation preserves the ledger invariant: the machine
reservation starts at the setup start computed against the very state being
reserved, which is at or past the machine earliest-free time, and the
operator reservation is conflict-checked. -/
theorem scheduleOperation_preserves (gs : GlobalSettings) (fuel : Nat) (st : EngineState)
    (operation : Operation) (od : Order) (batchQty : Nat) (fpd pre : Option Nat)
    (hinv : StInv st) :
    StInv (scheduleOperation gs fuel st operation od batchQty fpd pre).1 := by
  rw [scheduleOperation.eq_def]
  dsimp only
  repeat' split
  all_goals try exact hinv
  all_goals
    first
      | exact reserveMachine_preserves_StInv st _ _ _ hinv
          (calculateOperationTiming_setupStart_ge_free (by assumption))
      | (apply reserveOperator_preserves_StInv
         exact reserveMachine_preserves_StInv st _ _ _ hinv
           (calculateOperationTiming_setupStart_ge_free (by assumption)))

/-! ## The no-double-booking invariant over whole runs -/

theorem lookupIv_const_nil (L : List String) (k : String) :
    lookupIv (L.map fun m => (m, [])) k = [] := by
  induction L with
  | nil => rfl
  | cons a rest ih =>
    simp only [List.map_cons, lookupIv, List.find?]
    by_cases h : a == k
    · simp [h]
    · have h' : (a == k) = false := by revert h; cases a == k <;> simp
      simp only [h']
      simpa [lookupIv] using ih

theorem initEngine_StInv (gs : GlobalSettings) (now : Nat) : StInv (initEngine gs now) := by
  constructor <;> intro k
  · show NoOverlaps (lookupIv (allMachines.map fun m => (m, [])) k)
    rw [lookupIv_const_nil]
    exact List.Pairwise.nil
  · show NoOverlaps (lookupIv (allPersons.map fun p => (p, [])) k)
    rw [lookupIv_const_nil]
    exact List.Pairwise.nil

theorem scheduleOpsForBatch_preserves (gs : GlobalSettings) (fuel : Nat) (od : Order)
    (batch : Batch) (bi : Nat) :
    ∀ (ops : List Operation) (st : EngineState) (acc : List OpResult) (fpd pre : Option Nat),
      StInv st → StInv (scheduleOpsForBatch gs fuel od batch bi ops st acc fpd pre).1 := by
  intro ops
  induction ops with
  | nil => intro st acc fpd pre h; exact h
  | cons operation rest ih =>
    intro st acc fpd pre h
    rw [scheduleOpsForBatch]
    have hop := scheduleOperation_preserves gs fuel st operation od batch.quantity fpd pre h
    split
    · rename_i st' e heq
      rw [heq] at hop
      exact hop
    · rename_i st' r0 heq
      rw [heq] at hop
      exact ih _ _ _ _ hop

theorem scheduleBatches_preserves (gs : GlobalSettings) (fuel : Nat) (od : Order)
    (operations : List Operation) :
    ∀ (ibs : List (Nat × Batch)) (st : EngineState) (acc : List OpResult),
      StInv st → StInv (scheduleBatches gs fuel od operations ibs st acc).1 := by
  intro ibs
  induction ibs with
  | nil => intro st acc h; exact h
  | cons ib rest ih =>
    intro st acc h
    rw [scheduleBatches]
    have hb := scheduleOpsForBatch_preserves gs fuel od ib.2 ib.1 operations st acc none none h
    split
    · rename_i st' acc' e heq
      rw [heq] at hb
      exact hb
    · rename_i st' acc' heq
      rw [heq] at hb
      exact ih _ _ hb

theorem scheduleOrder_preserves (gs : GlobalSettings) (fuel : Nat) (st : EngineState)
    (od : Order) (alerts : List String) (hinv : StInv st) :
    StInv (scheduleOrder gs fuel st od alerts).1 := by
  rw [scheduleOrder.eq_def]
  dsimp only
  split
  · exact hinv
  · have hb := scheduleBatches_preserves gs fuel od
      (stableSortBy (fun a b => decide (a.OperationSeq < b.OperationSeq)) od.operations)
      (calculateBatchSplitting od.quantity
        (match (stableSortBy (fun a b => decide (a.OperationSeq < b.OperationSeq))
            od.operations).head? with
          | some op0 => jsOrDefault op0.Minimum_BatchSize 100
          | none => 100)
        od.priority od.batchMode od.customBatchSize).enum st [] hinv
    split
    · rename_i st' u e heq
      rw [heq] at hb
      exact hb
    · rename_i st' orderResults heq
      rw [heq] at hb
      split
      · exact hb
      · split
        · exact hb
        · exact hb

theorem processOrder_preserves (gs : GlobalSettings) (fuel : Nat) (acc : RunAcc)
    (order : Order) (hinv : StInv acc.st) : StInv (processOrder gs fuel acc order).st := by
  rw [processOrder.eq_def]
  have ho := scheduleOrder_preserves gs fuel acc.st order acc.alerts hinv
  split
  · rename_i st' alerts' e heq
    rw [heq] at ho
    exact ho
  · rename_i st' alerts' orderResults heq
    rw [heq] at ho
    exact ho

theorem foldl_processOrder_preserves (gs : GlobalSettings) (fuel : Nat) :
    ∀ (orders : List Order) (acc : RunAcc), StInv acc.st →
      StInv (orders.foldl (processOrder gs fuel) acc).st := by
  intro orders
  induction orders with
  | nil => intro acc h; exact h
  | cons o rest ih =>
    intro acc h
    rw [List.foldl_cons]
    exact ih _ (processOrder_preserves gs fuel acc o h)

/-- C1: after any run of the scheduling engine, on any input, any fuel and
any start time, no two intervals stored in any machine schedule overlap and
no two intervals stored in any operator schedule overlap (overlap meaning
start1 below end2 and start2 below end1).  Machine reservations always start
at or past the earliest-free time computed from the very ledger being
written, and operator reservations are conflict-checked before the push, so
the validation never stores a conflicting pair.  (Claim C1.) -/
theorem no_double_booking (ordersData : List Order) (gs : GlobalSettings) (now fuel : Nat) :
    ∀ resource : String,
      NoOverlaps (lookupIv (runSchedulingAcc ordersData gs now fuel).st.machineSchedule
        resource) ∧
      NoOverlaps (lookupIv (runSchedulingAcc ordersData gs now fuel).st.operatorSchedule
        resource) := by
  intro resource
  have h : StInv (runSchedulingAcc ordersData gs now fuel).st := by
    rw [runSchedulingAcc]
    exact foldl_processOrder_preserves gs fuel _ _ (initEngine_StInv gs now)
  exact ⟨h.1 resource, h.2 resource⟩

/-! ## Claim C9: order processing sequence -/

theorem orderLt_asymm {a b : Order} (h : orderLt a b = true) : orderLt b a = false := by
  revert h
  simp only [orderLt, Bool.or_eq_true, Bool.and_eq_true, decide_eq_true_eq,
    Bool.or_eq_false_iff, Bool.and_eq_false_iff, decide_eq_false_iff_not]
  omega

theorem orderLt_negtrans {a b c : Order} (h1 : orderLt b a = false)
    (h2 : orderLt c b = false) : orderLt c a = false := by
  revert h1 h2
  simp only [orderLt, Bool.or_eq_false_iff, Bool.and_eq_false_iff, decide_eq_false_iff_not]
  omega

/-- C9: the run iterates orders in the sortOrdersEDD order (definitional in
runSchedulingAcc), and that order is a permutation of the input, sorted by
due date ascending then priority weight descending (Urgent 4, High 3,
Normal 2, Low 1), with every tie class kept in its original relative order.
(Claim C9.) -/
theorem order_processing_sequence (orders : List Order) (gs : GlobalSettings)
    (now fuel : Nat) :
    runSchedulingAcc orders gs now fuel =
      (sortOrdersEDD orders).foldl (processOrder gs fuel)
        { st := initEngine gs now
          allResults := []
          alerts := if ((sortOrdersEDD orders).filter fun o =>
              jsCeilDiv ((o.dueDate : Int) - (now : Int)) 1440 ≤ 2).isEmpty then []
            else ["🚨 " ++ toString ((sortOrdersEDD orders).filter fun o =>
                jsCeilDiv ((o.dueDate : Int) - (now : Int)) 1440 ≤ 2).length ++
              " urgent orders detected - scheduler will prioritize these for on-time delivery"]
          originalOrderResults := [] } ∧
    List.Perm (sortOrdersEDD orders) orders ∧
    List.Pairwise (fun a b =>
      a.dueDate < b.dueDate ∨
        (a.dueDate = b.dueDate ∧ priorityWeight b.priority ≤ priorityWeight a.priority))
      (sortOrdersEDD orders) ∧
    ∀ d w, (sortOrdersEDD orders).filter
        (fun o => decide (o.dueDate = d) && decide (priorityWeight o.priority = w)) =
      orders.filter
        (fun o => decide (o.dueDate = d) && decide (priorityWeight o.priority = w)) := by
  refine ⟨rfl, stableSortBy_perm orderLt orders, ?_, ?_⟩
  · have h := stableSortBy_pairwise orderLt (fun h => orderLt_asymm h)
      (fun h1 h2 => orderLt_negtrans h1 h2) orders
    refine h.imp ?_
    intro a b hab
    revert hab
    simp only [orderLt, Bool.or_eq_false_iff, Bool.and_eq_false_iff, decide_eq_false_iff_not]
    omega
  · intro d w
    apply filter_stableSortBy orderLt _ (fun h => orderLt_asymm h)
      (fun h1 h2 => orderLt_negtrans h1 h2)
    intro a b ha hb
    revert ha hb
    simp only [Bool.and_eq_true, decide_eq_true_eq, orderLt, Bool.or_eq_false_iff,
      Bool.and_eq_false_iff, decide_eq_false_iff_not]
    omega

/-! ## Claim C2: piece-flow monotonicity (corrected) -/

/-- C2 amended: for an operation timed against its predecessor's piece
completions and run end, the run end never regresses (the second half of
the claim holds); and when the computed setup start still precedes the
predecessor's first-piece-ready time, the early-start test must have fired,
so the setup measured from the REQUESTED earliest start fits before that
time.  The spec's stronger reading - that the computed setup END then also
fits before it - is refuted separately: the machine-availability max is
applied after the early-start test and can push the setup end past the
first-piece-ready time.  (Claim C2, corrected.) -/
theorem piece_flow_monotonicity_amended {gs : GlobalSettings} {st : EngineState}
    {operation : Operation} {od : Order} {batchQty : Nat} {machine : String}
    {earliestStartTime : Nat} {rest : List Nat} {f pre : Nat} {timing : OpTiming}
    (h : calculateOperationTiming gs st operation od batchQty machine earliestStartTime
      (some (f :: rest)) (some pre) = Except.ok timing) :
    pre ≤ timing.runEndTime ∧
    (timing.setupStartTime < f → earliestStartTime + operation.SetupTime_Min ≤ f) :=
  ⟨calculateOperationTiming_runEnd_ge_prev h,
   fun hlt => calculateOperationTiming_early_start h hlt⟩

/-- Global settings for the C2 witness: no global start, no setup window. -/
def gsC2 : GlobalSettings :=
  { startDateTime := none, setupWindow := none, breakdownMachines := [] }

/-- The operation of the C2 witness: 10 minute setup, 1 minute cycle. -/
def opC2 : Operation :=
  { OperationSeq := 2
    OperationName := "OP2"
    SetupTime_Min := 10
    CycleTime_Min := 1
    EligibleMachines := none
    Minimum_BatchSize := none }

/-- The order of the C2 witness. -/
def odC2 : Order :=
  { partNumber := "PC2"
    quantity := 1
    priority := Priority.Normal
    dueDate := 10000
    dueDateText := "d10000"
    operations := [opC2]
    batchMode := BatchMode.singleBatch
    customBatchSize := none
    breakdownMachine := none
    setupWindow := none }

/-- The timing computed for the C2 witness call. -/
def timingC2 : OpTiming :=
  { setupStartTime := 460
    setupEndTime := 470
    runStartTime := 470
    runEndTime := 501
    pieceCompletionTimes := [501]
    pieceStartTimes := [480]
    firstPieceDone := 501
    totalWorkTime := 1
    totalPausedTime := 0 }

/-- Witness for piece_flow_monotonicity_amended at a concrete call. -/
theorem piece_flow_monotonicity_amended_witness :
    500 ≤ timingC2.runEndTime ∧
    (timingC2.setupStartTime < 480 → 460 + opC2.SetupTime_Min ≤ 480) :=
  @piece_flow_monotonicity_amended gsC2 (initEngine gsC2 0) opC2 odC2 1 "VMC 1" 460
    [] 480 500 timingC2 (by rfl)

/-- Single-eligible-machine operation fixture for the C2 counterexample run. -/
def mkOpC2 (seq setup cyc : Nat) (ms : List String) : Operation :=
  { OperationSeq := seq
    OperationName := "OP" ++ toString seq
    SetupTime_Min := setup
    CycleTime_Min := cyc
    EligibleMachines := some ms
    Minimum_BatchSize := none }

/-- Normal-priority single-batch order fixture for the C2 counterexample run. -/
def mkOrdC2 (pn : String) (qty due : Nat) (ops : List Operation) : Order :=
  { partNumber := pn
    quantity := qty
    priority := Priority.Normal
    dueDate := due
    dueDateText := "d"
    operations := ops
    batchMode := BatchMode.singleBatch
    customBatchSize := none
    breakdownMachine := none
    setupWindow := none }

/-- The four orders of the C2 counterexample: P1 keeps VMC 1 busy until
14:10, P2 and P3 occupy the morning operators, and P4's second operation is
forced onto VMC 1 after a backward setup-spillover move. -/
def ordersC2 : List Order :=
  [mkOrdC2 "P1" 460 100000 [mkOpC2 1 30 1 ["VMC 1"]],
   mkOrdC2 "P2" 2 100001 [mkOpC2 1 60 420 ["VMC 2"], mkOpC2 2 60 10 ["VMC 3"]],
   mkOrdC2 "P3" 2 100002 [mkOpC2 1 60 420 ["VMC 4"], mkOpC2 2 60 10 ["VMC 5"]],
   mkOrdC2 "P4" 2 100003 [mkOpC2 1 60 420 ["VMC 6"], mkOpC2 2 29 5 ["VMC 1"]]]

/-- Global settings of the C2 counterexample run: global start 06:00. -/
def gsRunC2 : GlobalSettings :=
  { startDateTime := some 360, setupWindow := none, breakdownMachines := [] }

/-- The per-order results of part P4 in the C2 counterexample run (the last
order processed). -/
def p4C2 : String × List OpResult :=
  (runSchedulingAcc ordersC2 gsRunC2 360 100).originalOrderResults.getLastD ("", [])

set_option maxRecDepth 100000 in
/-- Counterexample to C2 part 1: in the scheduled four-order run, part P4's
single batch has two consecutive operations whose computed times are setup
390-450 with first-piece-done 870, then setup 850-879: the second setup
STARTS before the predecessor's first piece is done (850 < 870) yet ENDS
after it (870 < 879).  The backward move of handleSetupSpillover re-enables
the early-start test and the machine-availability max then pushes the setup
end past the first-piece-done time. -/
theorem piece_flow_counterexample :
    p4C2.1 = "P4" ∧
    p4C2.2.map (fun r => (r.OperationSeq, r.SetupStart, r.SetupEnd, r.firstPieceDone)) =
      [(1, 390, 450, 870), (2, 850, 879, 1290)] ∧
    850 < 870 ∧ 870 < 879 :=
  ⟨rfl, rfl, by decide, by decide⟩

/-! ## Claim C8: late orders raise two alerts, not one -/

/-- scheduleOrder on a non-empty, fully scheduled, late order: the state of
the batch loop is returned, the will-be-late alert is appended and the last
result carries the due-date warning. -/
theorem scheduleOrder_late (gs : GlobalSettings) (fuel : Nat) (st : EngineState)
    (od : Order) (alerts : List String) (st2 : EngineState) (results : List OpResult)
    (lastOperation : OpResult)
    (hne : od.operations.isEmpty = false)
    (hb : scheduleBatches gs fuel od
      (stableSortBy (fun a b => decide (a.OperationSeq < b.OperationSeq)) od.operations)
      (calculateBatchSplitting od.quantity
        (match (stableSortBy (fun a b => decide (a.OperationSeq < b.OperationSeq))
            od.operations).head? with
          | some op0 => jsOrDefault op0.Minimum_BatchSize 100
          | none => 100)
        od.priority od.batchMode od.customBatchSize).enum st [] =
      (st2, results, Except.ok ()))
    (hlast : results.getLast? = some lastOperation)
    (hlate : od.dueDate < lastOperation.actualRunEnd) :
    scheduleOrder gs fuel st od alerts =
      (st2,
       alerts ++ ["⚠️ " ++ od.partNumber ++ " will be " ++
         toString (ceilDivNat (lastOperation.actualRunEnd - od.dueDate) 60) ++
         "h late (due " ++ od.dueDateText ++
         ") - consider splitting batch or reassigning machines"],
       Except.ok (results.dropLast ++ [{ lastOperation with
         DueDateWarning := some ("⚠️ " ++
           toString (ceilDivNat (lastOperation.actualRunEnd - od.dueDate) 60) ++
           "h late") }])) := by
  rw [scheduleOrder.eq_def]
  simp only [hne, Bool.false_eq_true, if_false]
  rw [hb]
  dsimp only
  rw [hlast]
  dsimp only
  rw [if_pos hlate]

/-- C8 amended: a fully scheduled order whose completion misses the due
date contributes TWO alert strings naming the part, both with the lateness
rounded up to whole hours: the will-be-late alert appended by the order
scheduler and the may-be-late alert appended by the run loop (the spec
promises exactly one).  (Claim C8, corrected.) -/
theorem due_date_alert_amended (gs : GlobalSettings) (fuel : Nat) (acc : RunAcc)
    (od : Order) (st2 : EngineState) (results : List OpResult) (lastOperation : OpResult)
    (hne : od.operations.isEmpty = false)
    (hb : scheduleBatches gs fuel od
      (stableSortBy (fun a b => decide (a.OperationSeq < b.OperationSeq)) od.operations)
      (calculateBatchSplitting od.quantity
        (match (stableSortBy (fun a b => decide (a.OperationSeq < b.OperationSeq))
            od.operations).head? with
          | some op0 => jsOrDefault op0.Minimum_BatchSize 100
          | none => 100)
        od.priority od.batchMode od.customBatchSize).enum acc.st [] =
      (st2, results, Except.ok ()))
    (hlast : results.getLast? = some lastOperation)
    (hlate1 : od.dueDate < lastOperation.actualRunEnd)
    (hlate2 : od.dueDate < lastOperation.RunEnd) :
    (processOrder gs fuel acc od).alerts =
      acc.alerts
        ++ ["⚠️ " ++ od.partNumber ++ " will be " ++
          toString (ceilDivNat (lastOperation.actualRunEnd - od.dueDate) 60) ++
          "h late (due " ++ od.dueDateText ++
          ") - consider splitting batch or reassigning machines"]
        ++ ["⚠️ " ++ od.partNumber ++ " may be " ++
          toString (ceilDivNat (lastOperation.RunEnd - od.dueDate) 60) ++
          "h late (due " ++ od.dueDateText ++ ")"] := by
  have hso := scheduleOrder_late gs fuel acc.st od acc.alerts st2 results lastOperation
    hne hb hlast hlate1
  rw [processOrder.eq_def, hso]
  dsimp only
  rw [List.getLast?_concat]
  dsimp only
  rw [if_pos hlate2]

/-- Global settings for the C8 construction: global start 06:00 on day 0. -/
def gsC8 : GlobalSettings :=
  { startDateTime := some 360, setupWindow := none, breakdownMachines := [] }

/-- The single operation of the C8 order: 60 minute setup, 1 minute cycle. -/
def opC8 : Operation :=
  { OperationSeq := 1
    OperationName := "OP1"
    SetupTime_Min := 60
    CycleTime_Min := 1
    EligibleMachines := some ["VMC 1"]
    Minimum_BatchSize := none }

/-- The C8 order: 10 pieces due at 06:40, which the schedule completes at
07:10, one hour late after rounding up. -/
def orderC8 : Order :=
  { partNumber := "P1"
    quantity := 10
    priority := Priority.Normal
    dueDate := 400
    dueDateText := "d400"
    operations := [opC8]
    batchMode := BatchMode.singleBatch
    customBatchSize := none
    breakdownMachine := none
    setupWindow := none }

/-- Run accumulator at the start of the C8 order. -/
def accC8 : RunAcc :=
  { st := initEngine gsC8 360, allResults := [], alerts := [], originalOrderResults := [] }

/-- The single computed operation result of the C8 order. -/
def lastOpC8 : OpResult :=
  { OperationSeq := 1
    OperationName := "OP1"
    Machine := "VMC 1"
    Person := "A"
    SetupStart := 360
    SetupEnd := 420
    RunStart := 420
    RunEnd := 430
    actualSetupEnd := 420
    actualRunEnd := 430
    pieceCompletionTimes := [421, 422, 423, 424, 425, 426, 427, 428, 429, 430]
    firstPieceDone := 421
    SetupTime_Min := 60
    CycleTime_Min := 1
    Batch_Qty := 10
    Timing := formatDurationBreakdown 360 430 70 0
    Batch_ID := "B01"
    Batch_Index := 0
    DueDateWarning := none }

/-- The engine state after the C8 batch loop. -/
def st2C8 : EngineState :=
  { machineSchedule := [("VMC 1", [⟨360, 430⟩]), ("VMC 2", []), ("VMC 3", []),
      ("VMC 4", []), ("VMC 5", []), ("VMC 6", []), ("VMC 7", [])]
    operatorSchedule := [("A", [⟨360, 420⟩]), ("B", []), ("C", []), ("D", [])]
    personSchedule := [("A", 420), ("B", 360), ("C", 360), ("D", 360)]
    effectiveStart := 360 }

/-- Witness for due_date_alert_amended on the concrete C8 order. -/
theorem due_date_alert_amended_witness :
    (processOrder gsC8 100 accC8 orderC8).alerts =
      [] ++ ["⚠️ " ++ orderC8.partNumber ++ " will be " ++
        toString (ceilDivNat (lastOpC8.actualRunEnd - orderC8.dueDate) 60) ++
        "h late (due " ++ orderC8.dueDateText ++
        ") - consider splitting batch or reassigning machines"]
        ++ ["⚠️ " ++ orderC8.partNumber ++ " may be " ++
        toString (ceilDivNat (lastOpC8.RunEnd - orderC8.dueDate) 60) ++
        "h late (due " ++ orderC8.dueDateText ++ ")"] :=
  due_date_alert_amended gsC8 100 accC8 orderC8 st2C8 [lastOpC8] lastOpC8
    (by rfl) (by rfl) (by rfl) (by decide) (by decide)

/-- Counterexample to C8 as stated: running the single late order produces
exactly TWO alert strings naming part P1, both reporting the one-hour
lateness, not exactly one. -/
theorem due_date_alert_counterexample :
    (runScheduling [orderC8] gsC8 360 100).alerts =
      ["🚨 1 urgent orders detected - scheduler will prioritize these for on-time delivery",
       "⚠️ P1 will be 1h late (due d400) - consider splitting batch or reassigning machines",
       "⚠️ P1 may be 1h late (due d400)"] := by
  rfl

/-! ## Claim C7: validator findings surface as alerts, rows kept -/

/-- C7: when the defensive ledger validators pass and the comprehensive
Schedule Validator reports violations, the run finalization surfaces the
failure as a single appended alert while every already-computed schedule
row is still returned (with its duration breakdown recomputed); validation
findings never delete or discard computed rows.  (Claim C7.) -/
theorem validator_failure_keeps_rows (ordersCount sortedCount : Nat) (st : EngineState)
    (allResults : List Row) (alerts : List String)
    (oor : List (String × List OpResult)) (now : Nat) (violations : List String)
    (hm : validateAllMachineSchedules st = Except.ok ())
    (ho : validateAllOperatorSchedules st now = Except.ok ())
    (hv : validateCompleteSchedule allResults now = (false, violations)) :
    (finalizeRun ordersCount sortedCount st allResults alerts oor now).rows =
      allResults.map (fun r =>
        { r with DurationBreakdown := (formatDurationBreakdown r.SetupStart r.RunEnd
            (r.SetupTime_Min + r.CycleTime_Min * r.Batch_Qty) 0) }) ∧
    (finalizeRun ordersCount sortedCount st allResults alerts oor now).alerts =
      alerts ++ ["❌ Schedule validation failed: " ++ String.intercalate ", " violations] := by
  simp only [finalizeRun, hm, ho, hv, bind, Except.bind, pure, Except.pure]
  exact ⟨trivial, rfl⟩

/-- Concrete engine state for the C7 witness: empty ledgers. -/
def stC7 : EngineState :=
  initEngine { startDateTime := none, setupWindow := none, breakdownMachines := [] } 0

/-- Concrete row for the C7 witness: operator A (morning shift) assigned a
setup 15:00-16:00, a shift violation for the row validator while both
ledger validators pass. -/
def rowC7 : Row :=
  { PartNumber := "P1"
    Order_Quantity := 1
    Priority := Priority.Normal
    Batch_ID := "B01"
    Batch_Qty := 1
    OperationSeq := 1
    OperationName := "OP"
    Machine := "VMC 1"
    Person := "A"
    SetupStart := 900
    SetupEnd := 960
    RunStart := 960
    RunEnd := 970
    Timing := ""
    DueDate := 2000
    SetupTime_Min := 60
    CycleTime_Min := 10
    DurationBreakdown := "" }

/-- Witness for validator_failure_keeps_rows on the concrete shift-violating
row over an empty ledger. -/
theorem validator_failure_keeps_rows_witness :
    (finalizeRun 1 1 stC7 [rowC7] [] [] 0).rows =
      [rowC7].map (fun r =>
        { r with DurationBreakdown := (formatDurationBreakdown r.SetupStart r.RunEnd
            (r.SetupTime_Min + r.CycleTime_Min * r.Batch_Qty) 0) }) ∧
    (finalizeRun 1 1 stC7 [rowC7] [] [] 0).alerts =
      [] ++ ["❌ Schedule validation failed: " ++ String.intercalate ", "
        ["[SHIFT-VIOLATION] Operator A assigned setup outside shift"]] :=
  validator_failure_keeps_rows 1 1 stC7 [rowC7] [] [] 0
    ["[SHIFT-VIOLATION] Operator A assigned setup outside shift"]
    (by rfl) (by rfl) (by rfl)

/-! ## Claim C3: reservation behaviour (corrected) -/

/-- Modelled from the spec: reserve(resourceId, interval) appends to that
resource, re-sorts by start, then re-validates the full interval set,
raising the fatal scheduling-integrity defect on any overlap. -/
def reserveSpec (sched : Sched) (resourceId : String) (iv : Interval) :
    Sched × Except String Unit :=
  let sorted := sortIntervals (lookupIv sched resourceId ++ [iv])
  (setIv sched resourceId sorted,
    match findOverlapPair sorted with
    | some _ => Except.error "scheduling integrity violated"
    | none => Except.ok ())

/-- Concrete state for the C3 counterexample: operator A already holds
06:00-08:00 on day zero, everything else is empty. -/
def stC3 : EngineState :=
  { machineSchedule := allMachines.map fun m => (m, [])
    operatorSchedule := [("A", [⟨360, 480⟩]), ("B", []), ("C", []), ("D", [])]
    personSchedule := []
    effectiveStart := 0 }

/-- Counterexample to C3 as stated: reserving 07:00-08:00 for operator A
conflicts with the stored 06:00-08:00, so the spec reserve raises the fatal
integrity error; the engine instead stores the interval under operator B,
leaves A untouched, and signals nothing (reserveOperator has no error
path).  The claim fails for operator reservations. -/
theorem reserve_conflict_counterexample :
    (reserveSpec stC3.operatorSchedule "A" ⟨420, 480⟩).2 =
      Except.error "scheduling integrity violated" ∧
    lookupIv (reserveOperator 10 stC3 "A" 420 480).operatorSchedule "A" = [⟨360, 480⟩] ∧
    lookupIv (reserveOperator 10 stC3 "A" 420 480).operatorSchedule "B" = [⟨420, 480⟩] := by
  refine ⟨rfl, rfl, rfl⟩

/-- C3 amended: machine reservations append, re-sort by start and re-run the
defensive validation, signalling the fatal scheduling-integrity error
exactly when the stored set holds an overlap (with the conflicting interval
left stored); operator reservations instead check for conflicts before
storing and resolve them silently (alternative operator or 15 minute
delays), never raising and always leaving every stored operator set
overlap-free.  (Claim C3, corrected.) -/
theorem reserve_behaviour_amended (st : EngineState) (m : String) (s e : Nat)
    (fuel : Nat) (op : String) (s2 e2 : Nat)
    (hinv : NoOvSched st.operatorSchedule) :
    (lookupIv (reserveMachine st m s e).1.machineSchedule m =
      sortIntervals (lookupIv st.machineSchedule m ++ [⟨s, e⟩])) ∧
    ((reserveMachine st m s e).2 = Except.ok () ↔
      NoOverlaps (sortIntervals (lookupIv st.machineSchedule m ++ [⟨s, e⟩]))) ∧
    NoOvSched (reserveOperator fuel st op s2 e2).operatorSchedule := by
  refine ⟨?_, ?_, reserveOperator_preserves fuel st op s2 e2 hinv⟩
  · rw [reserveMachine_machineSchedule, lookupIv_setIv_self]
  · constructor
    · intro hok
      by_contra hno
      have := findOverlapPair_ne_none hno
      revert hok
      show validateMachineSchedule _ m = Except.ok () → False
      simp only [validateMachineSchedule, reserveMachine_machineSchedule, lookupIv_setIv_self]
      cases hf : findOverlapPair (sortIntervals (lookupIv st.machineSchedule m ++ [⟨s, e⟩])) with
      | some p => intro h; cases h
      | none => intro h; exact this hf
    · intro hno
      show validateMachineSchedule _ m = Except.ok ()
      simp only [validateMachineSchedule, reserveMachine_machineSchedule, lookupIv_setIv_self]
      rw [findOverlapPair_eq_none hno]

/-- Witness for reserve_behaviour_amended on the concrete C3 state. -/
theorem reserve_behaviour_amended_witness :
    (lookupIv (reserveMachine stC3 "VMC 1" 0 50).1.machineSchedule "VMC 1" =
      sortIntervals (lookupIv stC3.machineSchedule "VMC 1" ++ [⟨0, 50⟩])) ∧
    ((reserveMachine stC3 "VMC 1" 0 50).2 = Except.ok () ↔
      NoOverlaps (sortIntervals (lookupIv stC3.machineSchedule "VMC 1" ++ [⟨0, 50⟩]))) ∧
    NoOvSched (reserveOperator 10 stC3 "A" 420 480).operatorSchedule :=
  reserve_behaviour_amended stC3 "VMC 1" 0 50 10 "A" 420 480 (by
    intro k
    by_cases hA : k = "A"
    · subst hA
      show NoOverlaps [⟨360, 480⟩]
      exact List.pairwise_singleton _ _
    · by_cases hB : k = "B"
      · subst hB; exact List.Pairwise.nil
      · by_cases hC : k = "C"
        · subst hC; exact List.Pairwise.nil
        · by_cases hD : k = "D"
          · subst hD; exact List.Pairwise.nil
          · show NoOverlaps (lookupIv stC3.operatorSchedule k)
            have : lookupIv stC3.operatorSchedule k = [] := by
              simp only [stC3, lookupIv, List.find?]
              have h1 : (("A" : String) == k) = false := by
                simp only [beq_eq_false_iff_ne]; exact fun h => hA h.symm
              have h2 : (("B" : String) == k) = false := by
                simp only [beq_eq_false_iff_ne]; exact fun h => hB h.symm
              have h3 : (("C" : String) == k) = false := by
                simp only [beq_eq_false_iff_ne]; exact fun h => hC h.symm
              have h4 : (("D" : String) == k) = false := by
                simp only [beq_eq_false_iff_ne]; exact fun h => hD h.symm
              simp [h1, h2, h3, h4]
            rw [this]
            exact List.Pairwise.nil)

/-! ## Claim C10: machine reservation is not atomic on error -/

/-- C10: a machine reservation that conflicts with the stored ledger raises
the scheduling-integrity error, yet the conflicting interval (and the whole
previous ledger) remains stored in the returned state, and the per-order
handler of the run converts a thrown order error into an alert and keeps
folding the remaining orders over that same un-rolled-back state.
(Claim C10.) -/
theorem machine_reservation_not_atomic
    (st : EngineState) (m : String) (s e : Nat)
    (gs : GlobalSettings) (fuel : Nat) (acc : RunAcc) (order : Order)
    (st2 : EngineState) (alerts2 : List String) (err : String)
    (hc : hasConflict st m ⟨s, e⟩ = true)
    (horder : scheduleOrder gs fuel acc.st order acc.alerts =
      (st2, alerts2, Except.error err)) :
    (reserveMachine st m s e).2 = Except.error ("Machine " ++ m ++
      " has overlapping bookings - scheduling integrity violated") ∧
    Interval.mk s e ∈ lookupIv (reserveMachine st m s e).1.machineSchedule m ∧
    (∀ iv ∈ lookupIv st.machineSchedule m,
      iv ∈ lookupIv (reserveMachine st m s e).1.machineSchedule m) ∧
    processOrder gs fuel acc order =
      { acc with
        st := st2
        alerts := alerts2 ++ ["❌ Failed to schedule " ++ order.partNumber ++ ": " ++ err] } := by
  refine ⟨reserveMachine_conflict_error st m s e hc,
    (reserveMachine_no_rollback st m s e).1,
    (reserveMachine_no_rollback st m s e).2, ?_⟩
  rw [processOrder.eq_def, horder]

/-- Concrete state for the C10 witness: VMC 1 already booked 00:00-01:40. -/
def stC10 : EngineState :=
  { machineSchedule := [("VMC 1", [⟨0, 100⟩])]
    operatorSchedule := []
    personSchedule := []
    effectiveStart := 0 }

/-- Concrete order without operations, whose scheduling throws. -/
def orderC10 : Order :=
  { partNumber := "PX"
    quantity := 1
    priority := Priority.Normal
    dueDate := 1000
    dueDateText := "1000"
    operations := []
    batchMode := BatchMode.singleBatch
    customBatchSize := none
    breakdownMachine := none
    setupWindow := none }

/-- Concrete empty run accumulator over the C10 state. -/
def accC10 : RunAcc :=
  { st := stC10, allResults := [], alerts := [], originalOrderResults := [] }

/-- Concrete global settings for the C10 witness. -/
def gsC10 : GlobalSettings :=
  { startDateTime := none, setupWindow := none, breakdownMachines := [] }

/-- Witness for machine_reservation_not_atomic at a concrete conflicting
reservation and a concrete failing order. -/
theorem machine_reservation_not_atomic_witness :
    (reserveMachine stC10 "VMC 1" 50 150).2 = Except.error ("Machine " ++ "VMC 1" ++
      " has overlapping bookings - scheduling integrity violated") ∧
    Interval.mk 50 150 ∈ lookupIv (reserveMachine stC10 "VMC 1" 50 150).1.machineSchedule
      "VMC 1" ∧
    (∀ iv ∈ lookupIv stC10.machineSchedule "VMC 1",
      iv ∈ lookupIv (reserveMachine stC10 "VMC 1" 50 150).1.machineSchedule "VMC 1") ∧
    processOrder gsC10 10 accC10 orderC10 =
      { accC10 with
        st := stC10
        alerts := [] ++ ["❌ Failed to schedule " ++ orderC10.partNumber ++ ": " ++
          "No operations found for part PX"] } :=
  machine_reservation_not_atomic stC10 "VMC 1" 50 150 gsC10 10 accC10
    orderC10 stC10 [] "No operations found for part PX" (by decide) (by rfl)

end X1
